import Mathlib

/-! pva2pva gateway: channel cache, provider facade and monitor multiplexer

A shallow embedding of `src/p2pApp/server.cpp` (the `GWServerChannelProvider`
facade) together with the channel cache and the monitor multiplexer it drives.

* Section 1 embeds the code of `server.cpp`: the name rewrite, `channelFind`
  and `createChannel`.
* Section 2 models the cache sweep and the monitor multiplexer.  Their
  implementation files (`chancache.cpp`, `moncache.cpp`) are not part of the
  source tree at hand; those definitions follow the written specification and
  say so in their doc comments.
-/

namespace GW

/-! ## 1. Data model shared by the provider and the cache -/

/-- A set of field positions (`pvd::BitSet`).  Position 0 stands for the whole
structure, leaf fields are numbered from 1 in depth-first order. -/
abbrev BitSet := Finset ℕ

/-- Connection state of an upstream channel (`pva::Channel::ConnectionState`). -/
inductive ConnectionState where
  | NEVER_CONNECTED
  | CONNECTED
  | DISCONNECTED
  | DESTROYED
deriving DecidableEq, Repr

/-- Upstream channel handle held by a cache entry (`ChannelCacheEntry::channel`). -/
structure UpstreamChannel where
  state : ConnectionState
deriving DecidableEq, Repr

/-- Embeds `Channel::isConnected()`: the state is `CONNECTED`. -/
def UpstreamChannel.isConnected (ch : UpstreamChannel) : Bool :=
  decide (ch.state = ConnectionState.CONNECTED)

/-! ### Payloads, monitor elements and request signatures -/

/-- A structure value, as the list of its leaf values: the leaf at index `k`
has field position `k + 1` (position 0 is the structure itself).  For the
`XYRecord` of `testmon.cpp` this is `[x, y]` with `x` at position 1 and `y` at
position 2. -/
abbrev Payload := List Int

/-- Normalised subscription request (queue size, pipeline flag, atomic flag,
field mask), the deduplication key inside a channel entry.  `makeRequest` of
`testmon.cpp` fills `queueSize` and `pipeline`. -/
structure RequestSignature where
  queueSize : ℕ
  pipeline : Bool
  atomic : Bool
  mask : List ℕ
deriving DecidableEq, Repr

/-- Embeds `makeRequest(bsize, pipeline)` of `testmon.cpp`: a request carrying
only `record._options.queueSize` and `record._options.pipeline`. -/
def makeRequest (bsize : ℕ) ( pipeline : Bool) : RequestSignature :=
  { queueSize := bsize, pipeline := pipeline, atomic := false, mask := [] }

/-- One queue slot in use: payload with its changed and overrun bitsets. -/
structure MonitorElement where
  payload : Payload
  changed : BitSet
  overrun : BitSet
deriving DecidableEq

/-- One downstream subscription.  `free` counts the slots on the free list and
`held` the slots polled by the downstream side and not released yet; the
pre-allocated slots are split between `queue`, `held` and `free`. -/
structure MonitorUser where
  uid : ℕ
  queueSize : ℕ
  queue : List MonitorElement
  free : ℕ
  held : ℕ
  running : Bool
  inOverflow : Bool
  initialSent : Bool
  changed : BitSet
  overrun : BitSet
  pipeline : Bool
  credit : ℕ
deriving DecidableEq

/-- One upstream subscription: the latest merged snapshot and the attached
users in attach order. -/
structure MonitorCacheEntry where
  mid : ℕ
  signature : RequestSignature
  snapshot : Payload
  connected : Bool
  users : List MonitorUser
deriving DecidableEq

/-! ### Channel cache entries and the cache -/

/-- One upstream channel by name (`ChannelCacheEntry`).  `server.cpp` reads
`channelName`, `channel`, `dropPoke` and `interested`; `mons` is the map from
request signature to upstream monitor, `nextMid` numbers the monitors created
so far. -/
structure ChannelCacheEntry where
  channelName : String
  channel : UpstreamChannel
  dropPoke : Bool
  interested : List ℕ
  mons : List (RequestSignature × MonitorCacheEntry)
  nextMid : ℕ
deriving DecidableEq

/-- The name map of the cache (`ChannelCache::entries_t`, a `std::map` from
name to entry) as an association list; `ChannelCache.WF` states that no name
occurs twice. -/
structure ChannelCache where
  entries : List (String × ChannelCacheEntry)
deriving DecidableEq

/-- Lookup in an association list: the first binding of `k`. -/
def assocFind {α β : Type} [DecidableEq α] (k : α) : List (α × β) → Option β
  | [] => none
  | (k', v) :: rest => if k' = k then some v else assocFind k rest

/-- Embeds `cache.entries.find(name)`; `none` stands for `entries.end()`. -/
def ChannelCache.find (c : ChannelCache) (name : String) : Option ChannelCacheEntry :=
  assocFind name c.entries

/-- The names bound in the cache. -/
def ChannelCache.names (c : ChannelCache) : List String :=
  c.entries.map Prod.fst

/-- Well-formedness of the name map: every name is bound at most once. -/
def ChannelCache.WF (c : ChannelCache) : Prop :=
  c.names.Nodup

instance (c : ChannelCache) : Decidable c.WF := by
  unfold ChannelCache.WF; infer_instance

/-- Replaces the value bound to `k`, if any, by its image under `f`. -/
def assocModify {α β : Type} [DecidableEq α] (k : α) (f : β → β) :
    List (α × β) → List (α × β)
  | [] => []
  | (k', v) :: rest =>
      if k' = k then (k', f v) :: rest else (k', v) :: assocModify k f rest

/-- Embeds `it->second->dropPoke = true` for the entry bound to `name`. -/
def ChannelCache.poke (c : ChannelCache) (name : String) : ChannelCache :=
  { entries := assocModify name (fun e => { e with dropPoke := true }) c.entries }

/-- Modelled from the spec: the constructor of `ChannelCacheEntry`, which is
not in the source tree.  A fresh entry has not connected yet (the upstream
connect "is launched and completes asynchronously"), starts its grace window
(`dropPoke` set by external interest) and has no monitors and no interested
downstream channels. -/
def ChannelCacheEntry.fresh (name : String) : ChannelCacheEntry :=
  { channelName := name
    channel := { state := ConnectionState.NEVER_CONNECTED }
    dropPoke := true
    interested := []
    mons := []
    nextMid := 0 }

/-- Modelled from the spec: `ChannelCache::get(name)`, which is not in the
source tree: "returns the existing entry or creates a new one and initiates
upstream connection.  Idempotent per name."  An existing entry is poked
("any external interest ... sets dropPoke = true"). -/
def ChannelCache.get (c : ChannelCache) (name : String) : ChannelCache :=
  match c.find name with
  | some _ => c.poke name
  | none => { entries := c.entries ++ [(name, ChannelCacheEntry.fresh name)] }

/-! ### The provider facade of `server.cpp` -/

/-- Completion status handed to a requester (`pvd::Status`). -/
inductive Status where
  | Ok
  | Error (message : String)
deriving DecidableEq, Repr

/-- Downstream channel wrapper: holds the cache entry it was created for and
the requester it reports to. -/
structure GWChannel where
  entry : ChannelCacheEntry
  requester : ℕ
deriving DecidableEq

/-- Observable steps of a provider call, in program order: taking and leaving
the scope of `Guard G(cache.cacheLock)`, diagnostic output, and the requester
callbacks with their arguments. -/
inductive Event where
  | lock
  | unlock
  | print (text : String)
  | channelFindResult (status : Status) (ret : Option ℕ) (found : Bool)
  | channelCreated (status : Status) (ret : Option GWChannel)
deriving DecidableEq

/-- The provider object: its identity (what `shared_from_this()` yields) and
its cache. -/
structure GWServerChannelProvider where
  self : ℕ
  cache : ChannelCache
deriving DecidableEq

/-- Embeds the guard `!channelName.empty() && channelName[0]=='x'`. -/
def servedName (channelName : String) : Bool :=
  match channelName.data with
  | [] => false
  | c :: _ => decide (c = 'x')

/-- Embeds the rewrite `newName = "y"; newName.append(channelName.begin()+1,
channelName.end())`. -/
def rewriteName (channelName : String) : String :=
  "y" ++ String.mk (channelName.data.drop 1)

/-- Result of `channelFind`: the returned `ChannelFind` handle, the provider
afterwards, and the events of the call. -/
structure FindOutcome where
  ret : Option ℕ
  provider : GWServerChannelProvider
  trace : List Event
deriving DecidableEq

/-- Embeds `GWServerChannelProvider::channelFind` (server.cpp 42-94).  The
`assert(cache.entries.size()>0)` after `cache.get` is discharged separately
(`get_entries_pos`). -/
def channelFind (p : GWServerChannelProvider) (channelName : String) : FindOutcome :=
  if servedName channelName then
    let newName := rewriteName channelName
    match p.cache.find newName with
    | none =>
        -- first request, create ChannelCacheEntry
        { ret := none
          provider := { p with cache := p.cache.get newName }
          trace := [Event.lock, Event.unlock,
                    Event.channelFindResult Status.Ok none false] }
    | some e =>
        if e.channel.isConnected then
          -- another request, and we are connected this time
          { ret := some p.self
            provider := { p with cache := p.cache.poke newName }
            trace := [Event.lock,
                      Event.print ("GWServer accepting " ++ channelName ++ " as " ++ newName ++ "\n"),
                      Event.unlock,
                      Event.channelFindResult Status.Ok (some p.self) true] }
        else
          -- not connected yet, but a client is still interested
          { ret := none
            provider := { p with cache := p.cache.poke newName }
            trace := [Event.lock,
                      Event.print ("cache poke " ++ newName ++ "\n"),
                      Event.unlock,
                      Event.channelFindResult Status.Ok none false] }
  else
    { ret := none
      provider := p
      trace := [Event.channelFindResult Status.Ok none false] }

/-- Modelled from the spec: the constructor of `GWChannel`, whose code
(`channel.cpp`) is not in the source tree: the new wrapper "holds the
ChannelEntry alive", it joins the entry's "weak set of downstream channel
wrappers that hold it open".  The wrapper is recorded under the requester it
was created for; nothing else of the entry is written. -/
def ChannelCache.hold (c : ChannelCache) (name : String) (channel : ℕ) : ChannelCache :=
  { entries :=
      assocModify name (fun e => { e with interested := e.interested ++ [channel] }) c.entries }

/-- Result of `createChannel`: the returned channel, the provider afterwards,
and the events of the call. -/
structure CreateOutcome where
  ret : Option GWChannel
  provider : GWServerChannelProvider
  trace : List Event
deriving DecidableEq

/-- The part of `createChannel` under the guard (server.cpp 116-131): the
channel to return, if any, and the events up to the end of the guarded block. -/
def createChannelLookup (p : GWServerChannelProvider) (channelName : String)
    (channelRequester : ℕ) : Option GWChannel × List Event :=
  if servedName channelName then
    match p.cache.find (rewriteName channelName) with
    | some e =>
        if e.channel.isConnected then
          (some { entry := e, requester := channelRequester }, [Event.lock, Event.unlock])
        else (none, [Event.lock, Event.unlock])
    | none => (none, [Event.lock, Event.unlock])
  else (none, [])

/-- Embeds `GWServerChannelProvider::createChannel` (server.cpp 109-143).  On
the success path the constructor call `new GWChannel(it->second,
channelRequester)` of line 129 acts on the cache through `ChannelCache.hold`;
the code of `server.cpp` itself only reads the map. -/
def createChannel (p : GWServerChannelProvider) (channelName : String)
    (channelRequester : ℕ) : CreateOutcome :=
  let r := createChannelLookup p channelName channelRequester
  match r.1 with
  | none =>
      { ret := none
        provider := p
        trace := r.2 ++
          [Event.print ("GWServer refusing channel " ++ channelName ++ "\n"),
           Event.channelCreated (Status.Error "Not found") none] }
  | some ch =>
      { ret := some ch
        provider :=
          { p with cache := p.cache.hold (rewriteName channelName) channelRequester }
        trace := r.2 ++
          [Event.print ("GWServer connecting channel " ++ channelName ++ " as " ++
              rewriteName channelName ++ "\n"),
           Event.channelCreated Status.Ok (some ch)] }

/-- The `found` flags passed to `channelFindResult`, in call order. -/
def foundFlags : List Event → List Bool
  | [] => []
  | Event.channelFindResult _ _ found :: rest => found :: foundFlags rest
  | _ :: rest => foundFlags rest

/-- The arguments of the `channelCreated` calls, in call order. -/
def createdCalls : List Event → List (Status × Option GWChannel)
  | [] => []
  | Event.channelCreated st ch :: rest => (st, ch) :: createdCalls rest
  | _ :: rest => createdCalls rest

/-! ## 2. Cache sweep and monitor multiplexer

The definitions of this section follow the written specification: the files
that implement them (`chancache.cpp`, `moncache.cpp`) are not in the source
tree, which only holds their callers (`server.cpp`) and tests (`testmon.cpp`). -/

/-! ### Cache sweep -/

/-- Modelled from the spec: the "external referrers" test of the sweeper,
whose code is not in the source tree: a downstream channel holds the entry, or
some monitor of the entry has an active user. -/
def ChannelCacheEntry.hasReferrers (e : ChannelCacheEntry) : Bool :=
  !e.interested.isEmpty || e.mons.any (fun sm => !sm.2.users.isEmpty)

/-- Modelled from the spec: the per-entry decision of the sweeper, whose code
is not in the source tree: "if dropPoke is true, clear it and continue (kept
another round).  Otherwise, if the entry has no external referrers ... mark it
for drop."  `none` means dropped. -/
def sweepEntry (e : ChannelCacheEntry) : Option ChannelCacheEntry :=
  if e.dropPoke then some { e with dropPoke := false }
  else if e.hasReferrers then some e
  else none

/-- Modelled from the spec: `ChannelCache::sweep()`, whose code is not in the
source tree: every entry is visited once and "marked entries are removed from
the map". -/
def ChannelCache.sweep (c : ChannelCache) : ChannelCache :=
  { entries := c.entries.filterMap (fun ke => (sweepEntry ke.2).map (fun e => (ke.1, e))) }

/-! ### Payload merge -/

/-- Modelled from the spec: which field positions a bitset indicates
("position 0 denotes whole value"): position `pos` is indicated when `pos`
itself or position 0 is set. -/
def covers (b : BitSet) (pos : ℕ) : Bool :=
  decide (0 ∈ b) || decide (pos ∈ b)

/-- The leaf value at field position `pos` (positions start at 1). -/
def fieldAt (v : Payload) (pos : ℕ) : Option Int :=
  match pos with
  | 0 => none
  | k + 1 => v.get? k

/-- Merge of the leaves from position `pos` on. -/
def mergeFrom (changed : BitSet) : ℕ → Payload → Payload → Payload
  | _, [], _ => []
  | _, s :: ss, [] => s :: ss
  | pos, s :: ss, d :: ds =>
      (if covers changed pos then d else s) :: mergeFrom changed (pos + 1) ss ds

/-- Modelled from the spec: step 1 of `onEvent`, whose code is not in the
source tree: "Merge delta into snapshot under changed (copy only the indicated
fields)." -/
def mergeDelta (snapshot delta : Payload) (changed : BitSet) : Payload :=
  mergeFrom changed 1 snapshot delta

/-! ### One downstream subscription -/

/-- Modelled from the spec: the negotiated queue depth, "clamped to ≥ 2"; the
request parser is not in the source tree. -/
def negotiatedQueueSize (sig : RequestSignature) : ℕ :=
  max 2 sig.queueSize

/-- Modelled from the spec: a `MonitorUser` as created on a downstream monitor
request (its constructor is not in the source tree): all slots free, nothing
queued, nothing accumulated, no credit yet, and running (scenario "Single
subscriber initial" polls right after subscribing). -/
def MonitorUser.create (uid : ℕ) (sig : RequestSignature) : MonitorUser :=
  { uid := uid
    queueSize := negotiatedQueueSize sig
    queue := []
    free := negotiatedQueueSize sig
    held := 0
    running := true
    inOverflow := false
    initialSent := false
    changed := ∅
    overrun := ∅
    pipeline := sig.pipeline
    credit := 0 }

/-- Modelled from the spec: whether a push may take a slot now (the code is
not in the source tree): the free list has a slot and, for a pipelined user,
"pushes are only allowed when credit > 0". -/
def MonitorUser.mayPush (u : MonitorUser) : Bool :=
  decide (0 < u.free) && (!u.pipeline || decide (0 < u.credit))

/-- Modelled from the spec: `pushToUser(u, changed, overrun)`, whose code is
not in the source tree: merge into the user's bitsets; with a slot, enqueue
the snapshot with the merged bitsets and clear them (a pipelined user spends
one credit); otherwise enter overflow. -/
def pushToUser (snapshot : Payload) (u : MonitorUser) (changed overrun : BitSet) :
    MonitorUser :=
  if u.mayPush then
    { u with
      queue := u.queue ++ [{ payload := snapshot
                             changed := u.changed ∪ changed
                             overrun := u.overrun ∪ overrun }]
      free := u.free - 1
      changed := ∅
      overrun := ∅
      credit := if u.pipeline then u.credit - 1 else u.credit }
  else
    { u with
      changed := u.changed ∪ changed
      overrun := u.overrun ∪ overrun
      inOverflow := true }

/-- Modelled from the spec: step 2 of `onEvent` for one user (code not in the
source tree): "If u.inOverflow, merge incoming changed into u.overrun and
merge into u.changed; do not allocate a slot.  Else attempt to pushToUser." -/
def deliver (snapshot : Payload) (u : MonitorUser) (changed overrun : BitSet) :
    MonitorUser :=
  if u.inOverflow then
    { u with overrun := u.overrun ∪ changed, changed := u.changed ∪ changed }
  else pushToUser snapshot u changed overrun

/-- Modelled from the spec: the initial delivery (code not in the source
tree): "synthesize an initial element from snapshot with changed =
{position 0}, overrun = ∅". -/
def initialDelivery (snapshot : Payload) (u : MonitorUser) : MonitorUser :=
  { u with
    queue := u.queue ++ [{ payload := snapshot, changed := {0}, overrun := ∅ }]
    free := u.free - 1
    initialSent := true }

/-- Modelled from the spec: `poll(u)` (code not in the source tree): "If
u.queue non-empty, pop head and return it"; "while not running, poll returns
empty".  The popped slot stays with the caller until released. -/
def MonitorUser.poll (u : MonitorUser) : Option MonitorElement × MonitorUser :=
  if u.running then
    match u.queue with
    | [] => (none, u)
    | e :: rest => (some e, { u with queue := rest, held := u.held + 1 })
  else (none, u)

/-- Modelled from the spec: the re-push after a slot or credit arrived (code
not in the source tree): one attempt "from snapshot with the accumulated
u.changed/u.overrun", leaving overflow when it succeeds. -/
def rePush (snapshot : Payload) (u : MonitorUser) : MonitorUser :=
  if u.inOverflow && decide (0 < u.free) then
    pushToUser snapshot { u with inOverflow := false } ∅ ∅
  else u

/-- Modelled from the spec: `release(element)` (code not in the source tree):
"returns an element to the free list; may trigger a re-push".  Releasing with
nothing held does nothing. -/
def MonitorUser.release (snapshot : Payload) (u : MonitorUser) : MonitorUser :=
  if u.held = 0 then u
  else rePush snapshot { u with held := u.held - 1, free := u.free + 1 }

/-- Modelled from the spec: `ackRequest(n)` (code not in the source tree):
credits of a pipelined user arrive; a user waiting in overflow gets its
re-push (scenario "Pipeline credit"). -/
def MonitorUser.ackRequest (snapshot : Payload) (u : MonitorUser) (n : ℕ) : MonitorUser :=
  if u.pipeline then rePush snapshot { u with credit := u.credit + n } else u

/-- Modelled from the spec: `start()` (code not in the source tree). -/
def MonitorUser.start (u : MonitorUser) : MonitorUser :=
  { u with running := true }

/-- Modelled from the spec: `stop()` (code not in the source tree). -/
def MonitorUser.stop (u : MonitorUser) : MonitorUser :=
  { u with running := false }

/-! ### One upstream subscription -/

/-- Applies `f` to the users with identity `uid`. -/
def modifyUser (uid : ℕ) (f : MonitorUser → MonitorUser) (us : List MonitorUser) :
    List MonitorUser :=
  us.map (fun u => if u.uid = uid then f u else u)

/-- The attached user with identity `uid`, if any. -/
def MonitorCacheEntry.findUser (m : MonitorCacheEntry) (uid : ℕ) : Option MonitorUser :=
  m.users.find? (fun u => decide (u.uid = uid))

/-- Modelled from the spec: a `MonitorEntry` at creation (its constructor is
not in the source tree): the upstream monitor has just been issued, no value
has been seen and nobody is attached. -/
def MonitorCacheEntry.create (mid : ℕ) (sig : RequestSignature) : MonitorCacheEntry :=
  { mid := mid, signature := sig, snapshot := [], connected := false, users := [] }

/-- Modelled from the spec: attaching a user to an upstream subscription (code
not in the source tree): the user is appended to the subscriber list, with its
initial element "when a user first attaches and upstream is already
connected". -/
def MonitorCacheEntry.attach (m : MonitorCacheEntry) (uid : ℕ) : MonitorCacheEntry :=
  let u := MonitorUser.create uid m.signature
  { m with users := m.users ++ [if m.connected then initialDelivery m.snapshot u else u] }

/-- Modelled from the spec: `onEvent(delta, changed, overrun)` (code not in
the source tree): merge the delta into the snapshot, then fan out to every
attached user. -/
def MonitorCacheEntry.onEvent (m : MonitorCacheEntry) (delta : Payload)
    (changed overrun : BitSet) : MonitorCacheEntry :=
  let snap := mergeDelta m.snapshot delta changed
  { m with
    snapshot := snap
    users := m.users.map (fun u => deliver snap u changed overrun) }

/-- Modelled from the spec: step 3 of `onEvent` (code not in the source tree):
the users to wake, those that "transitioned from empty-queue to non-empty". -/
def MonitorCacheEntry.wakes (m : MonitorCacheEntry) (delta : Payload)
    (changed overrun : BitSet) : List ℕ :=
  let snap := mergeDelta m.snapshot delta changed
  (m.users.filter (fun u =>
    u.queue.isEmpty && !(deliver snap u changed overrun).queue.isEmpty)).map (fun u => u.uid)

/-- Poll by the downstream side of user `uid`. -/
def MonitorCacheEntry.poll (m : MonitorCacheEntry) (uid : ℕ) :
    Option MonitorElement × MonitorCacheEntry :=
  match m.findUser uid with
  | none => (none, m)
  | some u => (u.poll.1, { m with users := modifyUser uid (fun v => v.poll.2) m.users })

/-- Release by the downstream side of user `uid`; a re-push carries the
snapshot current at release time. -/
def MonitorCacheEntry.release (m : MonitorCacheEntry) (uid : ℕ) : MonitorCacheEntry :=
  { m with users := modifyUser uid (MonitorUser.release m.snapshot) m.users }

/-- Credits for user `uid` arrive from the transport. -/
def MonitorCacheEntry.ackRequest (m : MonitorCacheEntry) (uid n : ℕ) : MonitorCacheEntry :=
  { m with users := modifyUser uid (fun u => u.ackRequest m.snapshot n) m.users }

/-- Modelled from the spec: `detach(u)` (code not in the source tree): the
user leaves the subscriber list; its queue and slots go with it. -/
def MonitorCacheEntry.detach (m : MonitorCacheEntry) (uid : ℕ) : MonitorCacheEntry :=
  { m with users := m.users.filter (fun u => !decide (u.uid = uid)) }

/-- The operations on one upstream subscription. -/
inductive MonAction where
  | attach (uid : ℕ)
  | onEvent (delta : Payload) (changed overrun : BitSet)
  | poll (uid : ℕ)
  | release (uid : ℕ)
  | ackRequest (uid n : ℕ)
  | detach (uid : ℕ)
  | start (uid : ℕ)
  | stop (uid : ℕ)

/-- One operation applied to an upstream subscription. -/
def MonitorCacheEntry.step (m : MonitorCacheEntry) : MonAction → MonitorCacheEntry
  | MonAction.attach uid => m.attach uid
  | MonAction.onEvent delta changed overrun => m.onEvent delta changed overrun
  | MonAction.poll uid => (m.poll uid).2
  | MonAction.release uid => m.release uid
  | MonAction.ackRequest uid n => m.ackRequest uid n
  | MonAction.detach uid => m.detach uid
  | MonAction.start uid => { m with users := modifyUser uid MonitorUser.start m.users }
  | MonAction.stop uid => { m with users := modifyUser uid MonitorUser.stop m.users }

/-- A sequence of operations applied in order. -/
def MonitorCacheEntry.run (m : MonitorCacheEntry) (acts : List MonAction) : MonitorCacheEntry :=
  acts.foldl MonitorCacheEntry.step m

/-! ### Monitors of a channel entry -/

/-- The signatures bound in the monitor map of a channel entry. -/
def ChannelCacheEntry.signatures (e : ChannelCacheEntry) : List RequestSignature :=
  e.mons.map Prod.fst

/-- Modelled from the spec: `attachMonitor(signature, user)` (code not in the
source tree): "returns (creating if needed) the deduplicated upstream monitor;
appends user to its subscriber set."  The result names the monitor by its
identity `mid`. -/
def ChannelCacheEntry.attachMonitor (e : ChannelCacheEntry) (sig : RequestSignature)
    (uid : ℕ) : ℕ × ChannelCacheEntry :=
  match assocFind sig e.mons with
  | some m =>
      (m.mid, { e with mons := assocModify sig (fun m' => m'.attach uid) e.mons })
  | none =>
      (e.nextMid,
       { e with
         mons := e.mons ++ [(sig, (MonitorCacheEntry.create e.nextMid sig).attach uid)]
         nextMid := e.nextMid + 1 })

/-- Modelled from the spec: `detachMonitor(user)` (code not in the source
tree): "removes from its MonitorEntry; if the entry becomes empty it is
retained until the next cache sweep." -/
def ChannelCacheEntry.detachMonitor (e : ChannelCacheEntry) (uid : ℕ) : ChannelCacheEntry :=
  { e with mons := e.mons.map (fun sm => (sm.1, sm.2.detach uid)) }

/-- Calls on the monitor map of a channel entry. -/
inductive ChanAction where
  | attachMonitor (sig : RequestSignature) (uid : ℕ)
  | detachMonitor (uid : ℕ)

/-- One call applied to a channel entry. -/
def ChannelCacheEntry.step (e : ChannelCacheEntry) : ChanAction → ChannelCacheEntry
  | ChanAction.attachMonitor sig uid => (e.attachMonitor sig uid).2
  | ChanAction.detachMonitor uid => e.detachMonitor uid

/-- A sequence of calls applied in order. -/
def ChannelCacheEntry.run (e : ChannelCacheEntry) (acts : List ChanAction) : ChannelCacheEntry :=
  acts.foldl ChannelCacheEntry.step e

/-! ### Scenario helpers -/

/-- Embeds what one `mon.poll()` of `testmon.cpp` asks of the user: the
`pvac::MonitorSync` gives back the element it polled before, then polls. -/
def MonitorCacheEntry.syncPoll (m : MonitorCacheEntry) (uid : ℕ) :
    Option MonitorElement × MonitorCacheEntry :=
  (m.release uid).poll uid

/-- The results of `k` successive `mon.poll()` calls of user `uid`. -/
def MonitorCacheEntry.syncPolls (m : MonitorCacheEntry) (uid : ℕ) :
    ℕ → List (Option MonitorElement)
  | 0 => []
  | k + 1 => (m.syncPoll uid).1 :: MonitorCacheEntry.syncPolls (m.syncPoll uid).2 uid k

/-- The results of `k` successive polls of user `uid`, each element released
right after it was polled. -/
def MonitorCacheEntry.pollReleases (m : MonitorCacheEntry) (uid : ℕ) :
    ℕ → List (Option MonitorElement)
  | 0 => []
  | k + 1 => (m.poll uid).1 :: MonitorCacheEntry.pollReleases ((m.poll uid).2.release uid) uid k

/-- Upstream events that each mark field `f` changed (and nothing overrun), as
`XYRecord::post` produces them. -/
def fieldEvents (f : ℕ) (deltas : List Payload) : List MonAction :=
  deltas.map (fun d => MonAction.onEvent d {f} ∅)

/-- The snapshots after each of a series of events that mark field `f`. -/
def snapshotsAfter (f : ℕ) : Payload → List Payload → List Payload
  | _, [] => []
  | s, d :: ds => mergeDelta s d {f} :: snapshotsAfter f (mergeDelta s d {f}) ds

/-! ### Deliveries to one user -/

/-- What happens to one user: an upstream event reaches it (with the snapshot
already merged), or its downstream side polls, releases, acknowledges, starts
or stops. -/
inductive UserAction where
  | event (snapshot : Payload) (changed overrun : BitSet)
  | poll
  | release (snapshot : Payload)
  | ackRequest (snapshot : Payload) (n : ℕ)
  | start
  | stop

/-- One action applied to a user. -/
def MonitorUser.step (u : MonitorUser) : UserAction → MonitorUser
  | UserAction.event snapshot changed overrun => deliver snapshot u changed overrun
  | UserAction.poll => u.poll.2
  | UserAction.release snapshot => u.release snapshot
  | UserAction.ackRequest snapshot n => u.ackRequest snapshot n
  | UserAction.start => u.start
  | UserAction.stop => u.stop

/-- A delivery to a user (an element put on its queue), with the fields that
upstream events marked changed since the previous delivery (`pending`) and
those marked more than once in that interval (`repeated`). -/
structure Delivery where
  elem : MonitorElement
  pending : BitSet
  repeated : BitSet
deriving DecidableEq

/-- A user under observation: the bookkeeping of the interval since the last
delivery, and the deliveries so far. -/
structure Observed where
  user : MonitorUser
  pending : BitSet
  repeated : BitSet
  log : List Delivery
deriving DecidableEq

/-- The element a step put on the queue, if it put one. -/
def enqueued (u u' : MonitorUser) : Option MonitorElement :=
  if u.queue.length < u'.queue.length then u'.queue.getLast? else none

/-- The fields an action marks changed upstream. -/
def UserAction.marks : UserAction → BitSet
  | UserAction.event _ changed _ => changed
  | _ => ∅

/-- One action applied to an observed user: the interval bookkeeping is
updated, and closed when the action delivers an element. -/
def Observed.step (o : Observed) (a : UserAction) : Observed :=
  let u' := o.user.step a
  let pend := o.pending ∪ a.marks
  let rep := o.repeated ∪ (o.pending ∩ a.marks)
  match enqueued o.user u' with
  | some e =>
      { user := u', pending := ∅, repeated := ∅
        log := o.log ++ [{ elem := e, pending := pend, repeated := rep }] }
  | none => { user := u', pending := pend, repeated := rep, log := o.log }

/-- Observation of a user over a sequence of actions, starting with an empty
interval. -/
def observe (u : MonitorUser) (acts : List UserAction) : Observed :=
  acts.foldl Observed.step { user := u, pending := ∅, repeated := ∅, log := [] }

/-! ### Scenario data -/

/-- Embeds `XYRecord::post(px, py)` of `testmon.cpp` for a record holding `x`
and `y`: a freshly built value (fields zero) receives `x` when `px` and `y`
when `py`, and the changed bitset marks the offsets of the fields put (1 for
`x`, 2 for `y`). -/
def XYRecord.post (x y : Int) (px py : Bool) : Payload × BitSet :=
  ([if px then x else 0, if py then y else 0],
   (if px then {1} else ∅) ∪ (if py then {2} else ∅))

/-- A cache holding one connected entry under the name `yfoo`, as it stands
after a client asked for `xfoo` and the upstream channel connected. -/
def cacheYfoo : ChannelCache :=
  { entries := [("yfoo",
      { ChannelCacheEntry.fresh "yfoo" with
        channel := { state := ConnectionState.CONNECTED } })] }

/-- Slot conservation: the pre-allocated slots of a user are split between
its queue, the elements held downstream and its free list. -/
def SlotsOk (u : MonitorUser) : Prop :=
  u.queue.length + u.held + u.free = u.queueSize

/-- The test record of `testmon.cpp` (`x = 1`, `y = 2`) behind a connected
upstream subscription with the given request and nobody attached. -/
def xyEntry (sig : RequestSignature) : MonitorCacheEntry :=
  { MonitorCacheEntry.create 0 sig with snapshot := [1, 2], connected := true }

/-- A pipelined user (queueSize 4, no credit granted yet) on the test record,
after it polled and released its initial element. -/
def pipelinedIdle : MonitorCacheEntry :=
  (xyEntry (makeRequest 4 true)).run
    [MonAction.attach 7, MonAction.poll 7, MonAction.release 7]

/-- Two downstream monitors with the same request on the test record, after
each polled and released its initial element (`test_share`). -/
def sharedIdle : MonitorCacheEntry :=
  (xyEntry (makeRequest 2 false)).run
    [MonAction.attach 1, MonAction.attach 2, MonAction.poll 1, MonAction.poll 2,
     MonAction.release 1, MonAction.release 2]

/-- The actions on the user of `test_overflow_downstream` after its initial
element was polled: four posts of `x`, then the poll that gives the initial
element back. -/
def overflowActs : List UserAction :=
  [UserAction.event [50, 2] {1} ∅, UserAction.event [51, 2] {1} ∅,
   UserAction.event [52, 2] {1} ∅, UserAction.event [53, 2] {1} ∅,
   UserAction.release [53, 2], UserAction.poll]

/-- The user of `test_overflow_downstream` (queueSize 3) once it polled its
initial element and still holds it. -/
def overflowUser : MonitorUser :=
  (initialDelivery [1, 2] (MonitorUser.create 1 (makeRequest 3 false))).poll.2

/-- The four posts of `test_overflow_downstream`: `x` = 50, 51, 52, 53, each
marking only `x` (field 1). -/
def overflowDeltas : List Payload :=
  [[50, 0], [51, 0], [52, 0], [53, 0]]

/-- The subscription of `test_overflow_downstream` (queueSize 3) after the
user polled its initial element, still holds it, and the four posts arrived. -/
def overflowHeld : MonitorCacheEntry :=
  (((xyEntry (makeRequest 3 false)).attach 1).poll 1).2.run (fieldEvents 1 overflowDeltas)

/-- The same subscription when the user polled and released its initial
element before the four posts arrived. -/
def overflowReleased : MonitorCacheEntry :=
  ((((xyEntry (makeRequest 3 false)).attach 1).poll 1).2.release 1).run
    (fieldEvents 1 overflowDeltas)

/-- The user of `test_overflow_downstream` after the four posts: two elements
queued, the initial element still held, no slot free, in overflow with `x`
both changed and overrun. -/
def overflowedUser : MonitorUser :=
  { uid := 1, queueSize := 3
    queue := [{ payload := [50, 2], changed := {1}, overrun := ∅ },
              { payload := [51, 2], changed := {1}, overrun := ∅ }]
    free := 0, held := 1, running := true, inOverflow := true, initialSent := true
    changed := {1}, overrun := {1}, pipeline := false, credit := 0 }

/-- A pipelined subscription (queueSize 3, no credit granted) in the situation
of `overflowHeld`. -/
def overflowPipelined : MonitorCacheEntry :=
  (((xyEntry (makeRequest 3 true)).attach 1).poll 1).2.run (fieldEvents 1 overflowDeltas)

/-- The third delivery of `test_overflow_downstream`: `x = 53`, posted after
`x = 52` found no free slot. -/
def overflowDelivery : Delivery :=
  { elem := { payload := [53, 2], changed := {1}, overrun := {1} }
    pending := {1}, repeated := {1} }

/-- A cache holding one connected entry under the name `yfoo` whose `dropPoke`
is clear, as a sweep leaves it. -/
def cacheYfooIdle : ChannelCache :=
  { entries := [("yfoo",
      { channelName := "yfoo"
        channel := { state := ConnectionState.CONNECTED }
        dropPoke := false
        interested := []
        mons := []
        nextMid := 0 })] }

/-- A call on the provider facade. -/
inductive ProviderCall where
  | channelFind (channelName : String)
  | createChannel (channelName : String) (channelRequester : ℕ)

/-- The provider after one call. -/
def GWServerChannelProvider.step (p : GWServerChannelProvider) :
    ProviderCall → GWServerChannelProvider
  | ProviderCall.channelFind channelName => (channelFind p channelName).provider
  | ProviderCall.createChannel channelName channelRequester =>
      (createChannel p channelName channelRequester).provider

/-- The provider after a sequence of calls. -/
def GWServerChannelProvider.run (p : GWServerChannelProvider) (calls : List ProviderCall) :
    GWServerChannelProvider :=
  calls.foldl GWServerChannelProvider.step p

/-- Whether every requester callback of a trace happens with the cache lock
not held; `held` tells whether the lock is held where the trace starts. -/
def callbacksUnlocked : Bool → List Event → Bool
  | _, [] => true
  | _, Event.lock :: rest => callbacksUnlocked true rest
  | _, Event.unlock :: rest => callbacksUnlocked false rest
  | held, Event.print _ :: rest => callbacksUnlocked held rest
  | held, Event.channelFindResult _ _ _ :: rest => !held && callbacksUnlocked held rest
  | held, Event.channelCreated _ _ :: rest => !held && callbacksUnlocked held rest

/-- Whether the cache lock is held at the end of a trace. -/
def lockHeldAfter : Bool → List Event → Bool
  | held, [] => held
  | _, Event.lock :: rest => lockHeldAfter true rest
  | _, Event.unlock :: rest => lockHeldAfter false rest
  | held, _ :: rest => lockHeldAfter held rest

/-- The test both calls are said to share, in the words of the claim: the
name is served (non-empty, begins with `x`), and the cache holds an entry
under the rewritten name whose upstream channel is connected. -/
def resolvable (c : ChannelCache) (channelName : String) : Bool :=
  servedName channelName &&
    (match c.find (rewriteName channelName) with
     | some e => e.channel.isConnected
     | none => false)

/-! ### The status command of `server.cpp` -/

/-- One element of the provider vector of the server context, as
`statusServer` tells them apart: a null pointer, a provider that is not a
`GWServerChannelProvider` (the `dynamic_cast` fails), or a gateway provider. -/
inductive ProviderSlot where
  | null
  | other (providerName : String)
  | gateway (p : GWServerChannelProvider)

/-- Embeds `(p ? p->getProviderName() : std::string("NULL"))`; a gateway
provider names itself `GWServer`. -/
def ProviderSlot.getProviderName : ProviderSlot → String
  | ProviderSlot.null => "NULL"
  | ProviderSlot.other providerName => providerName
  | ProviderSlot.gateway _ => "GWServer"

/-- Embeds the per-channel line of `statusServer` (server.cpp 286-287).  The
table `pva::Channel::ConnectionStateNames` is a parameter. -/
def channelLine (stateNames : ConnectionState → String) (e : ChannelCacheEntry) : String :=
  stateNames e.channel.state ++ " Channel '" ++ e.channelName ++ "' with " ++
    toString e.interested.length ++ " clients\n"

/-- Embeds the body of the provider loop of `statusServer` (server.cpp
262-288): the lines printed for one provider. -/
def statusProvider (stateNames : ConnectionState → String) (lvl : Int) :
    ProviderSlot → List String
  | ProviderSlot.gateway p =>
      ["Provider: " ++ (ProviderSlot.gateway p).getProviderName ++ "\n",
       "Cache has " ++ toString p.cache.entries.length ++ " channels\n"] ++
      (if lvl ≤ 0 then []
       else p.cache.entries.map (fun ke => channelLine stateNames ke.2))
  | slot => ["Provider: " ++ slot.getProviderName ++ "\n"]

/-- Embeds `statusServer(lvl)` (server.cpp 252-294): the lines written, in
order.  `gblctx` is the provider vector of the running server context, or
`none` when the weak pointer has expired; locking it then throws, and the
handler prints the message `what` of the exception. -/
def statusServer (stateNames : ConnectionState → String) (what : String)
    (gblctx : Option (List ProviderSlot)) (lvl : Int) : List String :=
  match gblctx with
  | none => ["Error: " ++ what ++ "\n"]
  | some prov =>
      ("Server has " ++ toString prov.length ++ " providers\n") ::
        (prov.map (statusProvider stateNames lvl)).flatten

/-- The table `pva::Channel::ConnectionStateNames` of pvAccess. -/
def ConnectionStateNames : ConnectionState → String
  | ConnectionState.NEVER_CONNECTED => "NEVER_CONNECTED"
  | ConnectionState.CONNECTED => "CONNECTED"
  | ConnectionState.DISCONNECTED => "DISCONNECTED"
  | ConnectionState.DESTROYED => "DESTROYED"

/-- Upstream events with their deltas and bitsets, as entry-level calls. -/
def eventActions (evs : List (Payload × BitSet × BitSet)) : List MonAction :=
  evs.map (fun ev => MonAction.onEvent ev.1 ev.2.1 ev.2.2)

/-- A pipelined user (queueSize 2) that spent its one credit and holds both
of its slots downstream: nothing queued, no credit, no free slot. -/
def pipelinedAllHeld : MonitorCacheEntry :=
  (xyEntry (makeRequest 2 true)).run
    [MonAction.attach 7, MonAction.poll 7, MonAction.ackRequest 7 1,
     MonAction.onEvent [5, 0] {1} ∅, MonAction.poll 7]

/-! ### The tag device support of `demo.cpp` -/

/-- Private data of the tag record (`tag_pvt`): the 64-bit tag, as a natural
number below `2 ^ 64`. -/
structure tag_pvt where
  tag : ℕ
deriving DecidableEq, Repr

/-- The fields of a `longoutRecord` that `write_tag` uses: `VAL` (a signed
32-bit integer, `-2 ^ 31 ≤ val < 2 ^ 31`), the private data pointer (`none` is
null), the value last put to the `OUT` link, and the alarm raised while
processing (status and severity), if any. -/
structure longoutRecord where
  val : Int
  dpvt : Option tag_pvt
  out : Option Int
  alarm : Option (String × String)
deriving DecidableEq, Repr

/-- The conversion of a signed 32-bit value to `epicsUInt64`, as in the
assignment `pvt->tag = prec->val` and in the operand of `|=`: the value modulo
`2 ^ 64` (a negative value is sign-extended). -/
def toUInt64 (v : Int) : ℕ :=
  (v % (2 ^ 64 : Int)).toNat

/-- The 32-bit pattern of a signed 32-bit value: the value modulo `2 ^ 32`. -/
def pattern32 (v : Int) : ℕ :=
  (v % (2 ^ 32 : Int)).toNat

/-- The upper 32 bits of a 64-bit tag. -/
def upper32 (tag : ℕ) : ℕ :=
  tag / 2 ^ 32 % 2 ^ 32

/-- The lower 32 bits of a 64-bit tag. -/
def lower32 (tag : ℕ) : ℕ :=
  tag % 2 ^ 32

/-- Embeds the three statements of `write_tag` that build the tag (demo.cpp
107-109): `tag = val; tag <<= 32; tag |= val;` on an `epicsUInt64`. -/
def makeTag (val : Int) : ℕ :=
  ((toUInt64 val * 2 ^ 32) % 2 ^ 64) ||| toUInt64 val

/-- Embeds `write_tag` (demo.cpp 97-118): the return code and the record
afterwards.  Without private data the record gets `COMM_ALARM` with severity
`INVALID_ALARM` and the call returns -1; otherwise the tag is stored, `VAL` is
put to the `OUT` link and the call returns 0. -/
def write_tag (prec : longoutRecord) : Int × longoutRecord :=
  match prec.dpvt with
  | none => (-1, { prec with alarm := some ("COMM_ALARM", "INVALID_ALARM") })
  | some _ =>
      (0, { prec with dpvt := some { tag := makeTag prec.val }, out := some prec.val })

/-- Embeds `getChannelProvider` (server.cpp 27-30): `shared_from_this()`, the
provider itself. -/
def GWServerChannelProvider.getChannelProvider (p : GWServerChannelProvider) : ℕ :=
  p.self

/-- The arguments of the `channelFindResult` calls of a trace, in call
order. -/
def findResults : List Event → List (Status × Option ℕ × Bool)
  | [] => []
  | Event.channelFindResult st ret found :: rest => (st, ret, found) :: findResults rest
  | _ :: rest => findResults rest

/-- A cache holding two connected entries, under `yfoo` and `ybar`. -/
def cacheTwo : ChannelCache :=
  { entries :=
      [("yfoo", { channelName := "yfoo", channel := { state := ConnectionState.CONNECTED }
                  dropPoke := true, interested := [], mons := [], nextMid := 0 }),
       ("ybar", { channelName := "ybar", channel := { state := ConnectionState.CONNECTED }
                  dropPoke := true, interested := [], mons := [], nextMid := 0 })] }

/-! ## 3. The provider facade: theorems -/

theorem assocModify_length {α β : Type} [DecidableEq α] (k : α) (f : β → β)
    (l : List (α × β)) : (assocModify k f l).length = l.length := by
  induction l with
  | nil => rfl
  | cons kv rest ih =>
      obtain ⟨k', v⟩ := kv
      by_cases h : k' = k <;> simp [assocModify, h, ih]

/-- The assertion `assert(cache.entries.size()>0)` of `channelFind` holds
after every `cache.get`. -/
theorem get_entries_pos (c : ChannelCache) (name : String) :
    0 < (c.get name).entries.length := by
  unfold ChannelCache.get
  cases hf : c.find name with
  | none => simp
  | some e =>
      simp only [ChannelCache.poke, assocModify_length]
      cases hl : c.entries with
      | nil => simp [ChannelCache.find, hl, assocFind] at hf
      | cons kv rest => simp

theorem rewriteName_data (channelName : String) :
    (rewriteName channelName).data = 'y' :: channelName.data.drop 1 := by
  simp [rewriteName]

theorem servedName_rewriteName (channelName : String) :
    servedName (rewriteName channelName) = false := by
  simp [servedName, rewriteName_data]

theorem createChannelLookup_fst (p : GWServerChannelProvider) (channelName : String)
    (channelRequester : ℕ) :
    (createChannelLookup p channelName channelRequester).1 =
      if servedName channelName then
        match p.cache.find (rewriteName channelName) with
        | some e =>
            if e.channel.isConnected then some { entry := e, requester := channelRequester }
            else none
        | none => none
      else none := by
  unfold createChannelLookup
  split
  · split <;> [split; skip] <;> simp_all
  · rfl

theorem createChannelLookup_snd (p : GWServerChannelProvider) (channelName : String)
    (channelRequester : ℕ) :
    ∀ ev ∈ (createChannelLookup p channelName channelRequester).2,
      ev = Event.lock ∨ ev = Event.unlock := by
  unfold createChannelLookup
  split
  · split <;> [split; skip] <;> simp
  · simp

theorem createdCalls_skip_guard (l : List Event)
    (h : ∀ ev ∈ l, ev = Event.lock ∨ ev = Event.unlock) (tl : List Event) :
    createdCalls (l ++ tl) = createdCalls tl := by
  induction l with
  | nil => rfl
  | cons a l ih =>
      have ha := h a (List.mem_cons_self _ _)
      have := ih (fun ev hev => h ev (List.mem_cons_of_mem _ hev))
      rcases ha with rfl | rfl <;> simpa [createdCalls] using this

/-- Claim C1: `createChannel` returns a channel and reports it with status Ok
exactly when the name is non-empty, begins with `x`, and the cache holds a
connected entry under the rewritten name; the returned channel then wraps that
entry (and the requester it was given).  In every other case it returns null
and calls `channelCreated` once, with the error status "Not found" and a null
channel. -/
theorem createChannel_contract (p : GWServerChannelProvider) (channelName : String)
    (channelRequester : ℕ) :
    (((createChannel p channelName channelRequester).ret ≠ none ∧
        createdCalls (createChannel p channelName channelRequester).trace =
          [(Status.Ok, (createChannel p channelName channelRequester).ret)]) ↔
      (servedName channelName = true ∧
        ∃ e, p.cache.find (rewriteName channelName) = some e ∧ e.channel.isConnected = true)) ∧
    (∀ ch, (createChannel p channelName channelRequester).ret = some ch →
      p.cache.find (rewriteName channelName) = some ch.entry ∧
      ch.requester = channelRequester) ∧
    (¬ (servedName channelName = true ∧
        ∃ e, p.cache.find (rewriteName channelName) = some e ∧ e.channel.isConnected = true) →
      (createChannel p channelName channelRequester).ret = none ∧
      createdCalls (createChannel p channelName channelRequester).trace =
        [(Status.Error "Not found", none)]) := by
  have hl := createChannelLookup_fst p channelName channelRequester
  have h2 := createChannelLookup_snd p channelName channelRequester
  cases hs : servedName channelName <;> cases hf : p.cache.find (rewriteName channelName) with
  | none =>
    simp only [createChannel, hl, hs, hf]
    simp [createdCalls_skip_guard _ h2, createdCalls]
  | some e =>
    cases hc : e.channel.isConnected <;>
    simp only [createChannel, hl, hs, hf, hc] <;>
    simp [createdCalls_skip_guard _ h2, createdCalls, hc]

theorem channelFind_foundFlags (p : GWServerChannelProvider) (channelName : String) :
    foundFlags (channelFind p channelName).trace =
      [servedName channelName &&
        (match p.cache.find (rewriteName channelName) with
         | some e => e.channel.isConnected
         | none => false)] := by
  unfold channelFind
  cases hs : servedName channelName
  · simp [foundFlags]
  · cases hf : p.cache.find (rewriteName channelName) with
    | none => simp [foundFlags, hf]
    | some e => cases hc : e.channel.isConnected <;> simp [foundFlags, hf, hc]

/-- Claim C2 as stated fails: the cache holds a connected entry under the name
`yfoo`, yet `channelFind` for `yfoo` reports not found, because only names
beginning with `x` are served. -/
theorem channelFind_found_unserved_counterexample :
    ¬ (foundFlags (channelFind { self := 0, cache := cacheYfoo } "yfoo").trace = [true] ↔
        ∃ e, cacheYfoo.find "yfoo" = some e ∧ e.channel.isConnected = true) := by
  intro h
  have h1 : ∃ e, cacheYfoo.find "yfoo" = some e ∧ e.channel.isConnected = true :=
    ⟨{ ChannelCacheEntry.fresh "yfoo" with channel := { state := ConnectionState.CONNECTED } },
      by decide, by decide⟩
  have h2 := h.mpr h1
  revert h2
  decide

/-- Claim C2, amended: `channelFind` calls `channelFindResult` once, and
reports found = true exactly when the name is non-empty, begins with `x`, and
the cache held, before the call, a connected entry under the rewritten name;
in particular a request whose rewritten name has no entry reports not found. -/
theorem channelFind_found_iff (p : GWServerChannelProvider) (channelName : String) :
    (foundFlags (channelFind p channelName).trace = [true] ↔
      (servedName channelName = true ∧
        ∃ e, p.cache.find (rewriteName channelName) = some e ∧ e.channel.isConnected = true)) ∧
    (foundFlags (channelFind p channelName).trace = [true] ∨
      foundFlags (channelFind p channelName).trace = [false]) ∧
    (p.cache.find (rewriteName channelName) = none →
      foundFlags (channelFind p channelName).trace = [false]) := by
  rw [channelFind_foundFlags]
  cases hs : servedName channelName <;> cases hf : p.cache.find (rewriteName channelName) with
  | none => simp
  | some e => cases hc : e.channel.isConnected <;> simp [hc]

/-- Claim C3: for a non-empty name beginning with `x` the rewritten name is `y`
followed by the characters after the first (same length, same tail), so it
does not begin with `x`; `channelFind` and `createChannel` for a rewritten name
answer not found, leave the provider and its cache as they were and never take
the cache lock. -/
theorem rewrite_prevents_self_loop (channelName : String)
    (h : servedName channelName = true) :
    (rewriteName channelName).data = 'y' :: channelName.data.tail ∧
    (rewriteName channelName).length = channelName.length ∧
    servedName (rewriteName channelName) = false ∧
    ∀ (p : GWServerChannelProvider) (channelRequester : ℕ),
      channelFind p (rewriteName channelName) =
        { ret := none, provider := p,
          trace := [Event.channelFindResult Status.Ok none false] } ∧
      (createChannel p (rewriteName channelName) channelRequester).ret = none ∧
      (createChannel p (rewriteName channelName) channelRequester).provider = p ∧
      createdCalls (createChannel p (rewriteName channelName) channelRequester).trace =
        [(Status.Error "Not found", none)] ∧
      Event.lock ∉ (createChannel p (rewriteName channelName) channelRequester).trace := by
  have hy := servedName_rewriteName channelName
  refine ⟨by simp [rewriteName_data], ?_, hy, ?_⟩
  · have hd := rewriteName_data channelName
    unfold servedName at h
    cases hdat : channelName.data with
    | nil => simp [hdat] at h
    | cons c cs =>
        simp only [String.length, hd, hdat]
        simp
  · intro p channelRequester
    refine ⟨by simp [channelFind, hy], ?_⟩
    simp [createChannel, createChannelLookup, hy, createdCalls]

/-- Witness for claim C3 at the name `xfoo`, rewritten to `yfoo`. -/
theorem rewrite_prevents_self_loop_witness :
    servedName "xfoo" = true ∧
    rewriteName "xfoo" = "yfoo" ∧
    (rewriteName "xfoo").data = 'y' :: ("xfoo" : String).data.tail ∧
    (rewriteName "xfoo").length = ("xfoo" : String).length :=
  ⟨by decide, by decide,
    (rewrite_prevents_self_loop "xfoo" (by decide)).1,
    (rewrite_prevents_self_loop "xfoo" (by decide)).2.1⟩

/-! ## 4. Cache sweep: theorems -/

theorem assocFind_eq_none_iff {α β : Type} [DecidableEq α] (k : α) (l : List (α × β)) :
    assocFind k l = none ↔ k ∉ l.map Prod.fst := by
  induction l with
  | nil => simp [assocFind]
  | cons kv rest ih =>
      obtain ⟨k', v⟩ := kv
      by_cases h : k' = k
      · simp [assocFind, h]
      · simp [assocFind, h, ih, Ne.symm h]

theorem assocFind_filterMap {α β : Type} [DecidableEq α] (k : α) (g : β → Option β)
    (l : List (α × β)) (hl : (l.map Prod.fst).Nodup) :
    assocFind k (l.filterMap (fun kv => (g kv.2).map (fun v => (kv.1, v)))) =
      (assocFind k l).bind g := by
  induction l with
  | nil => simp [assocFind]
  | cons kv rest ih =>
      obtain ⟨k', v⟩ := kv
      simp only [List.map_cons, List.nodup_cons] at hl
      have ih' := ih hl.2
      by_cases h : k' = k
      · subst h
        have hnone : assocFind k' rest = none := (assocFind_eq_none_iff k' rest).2 hl.1
        cases hg : g v with
        | none => simp [List.filterMap_cons, hg, assocFind, ih', hnone]
        | some v' => simp [List.filterMap_cons, hg, assocFind]
      · cases hg : g v with
        | none => simp [List.filterMap_cons, hg, assocFind, h, ih']
        | some v' => simp [List.filterMap_cons, hg, assocFind, h, ih']

theorem sweep_find (c : ChannelCache) (hwf : c.WF) (name : String) :
    c.sweep.find name = (c.find name).bind sweepEntry :=
  assocFind_filterMap name sweepEntry c.entries hwf

theorem sweep_WF (c : ChannelCache) (hwf : c.WF) : c.sweep.WF := by
  unfold ChannelCache.WF ChannelCache.names ChannelCache.sweep at *
  refine List.Nodup.sublist ?_ hwf
  generalize c.entries = l
  induction l with
  | nil => simp
  | cons kv rest ih =>
      cases hg : sweepEntry kv.2 with
      | none => simpa [List.filterMap_cons, hg] using List.Sublist.cons kv.1 ih
      | some v' => simpa [List.filterMap_cons, hg] using List.Sublist.cons₂ kv.1 ih

/-- Claim C10: for a cache entry without external referrers, a sweep keeps the
entry and clears `dropPoke` when `dropPoke` was set, and removes the entry from
the map when it was not; so an unreferenced entry whose `dropPoke` was set
survives the first sweep and is gone after the second. -/
theorem sweep_grace (c : ChannelCache) (name : String) (e : ChannelCacheEntry)
    (hwf : c.WF) (hf : c.find name = some e) (hr : e.hasReferrers = false) :
    (e.dropPoke = true →
      c.sweep.find name = some { e with dropPoke := false } ∧
      c.sweep.sweep.find name = none ∧ name ∉ c.sweep.sweep.names) ∧
    (e.dropPoke = false →
      c.sweep.find name = none ∧ name ∉ c.sweep.names) := by
  have h1 := sweep_find c hwf name
  have h2 := sweep_find c.sweep (sweep_WF c hwf) name
  rw [hf] at h1
  constructor
  · intro hd
    have hs : c.sweep.find name = some { e with dropPoke := false } := by
      rw [h1]; simp [sweepEntry, hd]
    have hs2 : c.sweep.sweep.find name = none := by
      rw [h2, hs]
      simp only [Option.some_bind]
      have : ({ e with dropPoke := false } : ChannelCacheEntry).hasReferrers = false := hr
      simp [sweepEntry, this]
    exact ⟨hs, hs2, (assocFind_eq_none_iff name _).1 hs2⟩
  · intro hd
    have hs : c.sweep.find name = none := by
      rw [h1]; simp [sweepEntry, hd, hr]
    exact ⟨hs, (assocFind_eq_none_iff name _).1 hs⟩

/-- Witness for claim C10 -/
theorem sweep_grace_witness :
    cacheYfoo.WF ∧
    cacheYfoo.sweep.find "yfoo" =
      some { ChannelCacheEntry.fresh "yfoo" with
             channel := { state := ConnectionState.CONNECTED }, dropPoke := false } ∧
    cacheYfoo.sweep.sweep.find "yfoo" = none :=
  have h := (sweep_grace cacheYfoo "yfoo"
    { ChannelCacheEntry.fresh "yfoo" with channel := { state := ConnectionState.CONNECTED } }
    (by decide) (by decide) (by decide)).1 (by decide)
  ⟨by decide, h.1, h.2.1⟩

/-! ## 5. Monitor multiplexer: theorems -/

/-! ### Users keep their identity -/

theorem pushToUser_uid (s : Payload) (u : MonitorUser) (c o : BitSet) :
    (pushToUser s u c o).uid = u.uid := by
  unfold pushToUser; split <;> rfl

theorem deliver_uid (s : Payload) (u : MonitorUser) (c o : BitSet) :
    (deliver s u c o).uid = u.uid := by
  unfold deliver; split
  · rfl
  · exact pushToUser_uid s u c o

theorem poll_uid (u : MonitorUser) : u.poll.2.uid = u.uid := by
  unfold MonitorUser.poll
  split
  · split <;> rfl
  · rfl

theorem rePush_uid (s : Payload) (u : MonitorUser) : (rePush s u).uid = u.uid := by
  unfold rePush; split
  · exact pushToUser_uid s _ ∅ ∅
  · rfl

theorem release_uid (s : Payload) (u : MonitorUser) : (u.release s).uid = u.uid := by
  unfold MonitorUser.release; split
  · rfl
  · exact rePush_uid s _

theorem ackRequest_uid (s : Payload) (u : MonitorUser) (n : ℕ) :
    (u.ackRequest s n).uid = u.uid := by
  unfold MonitorUser.ackRequest; split
  · exact rePush_uid s _
  · rfl

theorem find_map_uid (g : MonitorUser → MonitorUser) (hg : ∀ u, (g u).uid = u.uid)
    (uid : ℕ) (us : List MonitorUser) :
    (us.map g).find? (fun u => decide (u.uid = uid)) =
      (us.find? (fun u => decide (u.uid = uid))).map g := by
  induction us with
  | nil => rfl
  | cons u rest ih =>
      by_cases h : u.uid = uid
      · simp [List.find?_cons, hg, h]
      · simp [List.find?_cons, hg, h, ih]

theorem find_modifyUser (f : MonitorUser → MonitorUser) (hf : ∀ u, (f u).uid = u.uid)
    (uid : ℕ) (us : List MonitorUser) :
    (modifyUser uid f us).find? (fun u => decide (u.uid = uid)) =
      (us.find? (fun u => decide (u.uid = uid))).map f := by
  induction us with
  | nil => rfl
  | cons u rest ih =>
      unfold modifyUser at ih ⊢
      by_cases h : u.uid = uid
      · simp [List.find?_cons, hf, h]
      · simp [List.find?_cons, h, ih]

/-! ### What an entry-level call does to one attached user -/

theorem findUser_onEvent (m : MonitorCacheEntry) (uid : ℕ) (d : Payload) (c o : BitSet) :
    (m.onEvent d c o).findUser uid =
      (m.findUser uid).map (fun u => deliver (mergeDelta m.snapshot d c) u c o) :=
  find_map_uid _ (fun u => deliver_uid _ u c o) uid m.users

theorem findUser_release (m : MonitorCacheEntry) (uid : ℕ) :
    (m.release uid).findUser uid = (m.findUser uid).map (MonitorUser.release m.snapshot) :=
  find_modifyUser _ (release_uid m.snapshot) uid m.users

theorem poll_fst (m : MonitorCacheEntry) (uid : ℕ) (u : MonitorUser)
    (h : m.findUser uid = some u) : (m.poll uid).1 = u.poll.1 := by
  simp [MonitorCacheEntry.poll, h]

theorem findUser_poll (m : MonitorCacheEntry) (uid : ℕ) :
    (m.poll uid).2.findUser uid = (m.findUser uid).map (fun u => u.poll.2) := by
  unfold MonitorCacheEntry.poll
  cases h : m.findUser uid with
  | none => simp [h]
  | some u =>
      simp only [Option.map_some']
      have := find_modifyUser (fun v => v.poll.2) poll_uid uid m.users
      unfold MonitorCacheEntry.findUser at h ⊢
      simpa [h] using this

theorem poll_snapshot (m : MonitorCacheEntry) (uid : ℕ) : (m.poll uid).2.snapshot = m.snapshot := by
  unfold MonitorCacheEntry.poll
  cases h : m.findUser uid <;> rfl

theorem findUser_attach (m : MonitorCacheEntry) (uid : ℕ) (h : m.findUser uid = none) :
    (m.attach uid).findUser uid =
      some (if m.connected then initialDelivery m.snapshot (MonitorUser.create uid m.signature)
            else MonitorUser.create uid m.signature) := by
  unfold MonitorCacheEntry.findUser at h ⊢
  unfold MonitorCacheEntry.attach
  simp only [List.find?_append, h, Option.none_or]
  cases m.connected <;> simp [List.find?_cons, initialDelivery, MonitorUser.create]

/-- Claim C4: a user that attaches to a connected upstream subscription, for
any request signature (the queue size is clamped to at least 2), polls exactly
one element before any further upstream event: the current snapshot with
changed = {0} and overrun empty; the next poll returns nothing, whether or not
the first element was given back. -/
theorem initial_delivery (m : MonitorCacheEntry) (uid : ℕ)
    (hc : m.connected = true) (hfresh : m.findUser uid = none) :
    ((m.attach uid).poll uid).1 =
      some { payload := m.snapshot, changed := {0}, overrun := ∅ } ∧
    (((m.attach uid).poll uid).2.poll uid).1 = none ∧
    (((m.attach uid).poll uid).2.syncPoll uid).1 = none := by
  have h1 := findUser_attach m uid hfresh
  rw [hc] at h1
  simp only [if_true] at h1
  have h2 := findUser_poll (m.attach uid) uid
  rw [h1] at h2
  simp only [Option.map_some'] at h2
  have hs : ((m.attach uid).poll uid).2.snapshot = m.snapshot := by
    rw [poll_snapshot]; rfl
  have h3 := findUser_release ((m.attach uid).poll uid).2 uid
  rw [h2, hs] at h3
  simp only [Option.map_some'] at h3
  refine ⟨?_, ?_, ?_⟩
  · rw [poll_fst _ uid _ h1]
    simp [MonitorUser.poll, initialDelivery, MonitorUser.create]
  · rw [poll_fst _ uid _ h2]
    simp [MonitorUser.poll, initialDelivery, MonitorUser.create]
  · unfold MonitorCacheEntry.syncPoll
    rw [poll_fst _ uid _ h3]
    simp [MonitorUser.poll, MonitorUser.release, rePush, initialDelivery, MonitorUser.create]

/-! ### Bounded queues -/

theorem slotsOk_create (uid : ℕ) (sig : RequestSignature) :
    SlotsOk (MonitorUser.create uid sig) := by
  simp [SlotsOk, MonitorUser.create]

theorem slotsOk_initialDelivery (s : Payload) (uid : ℕ) (sig : RequestSignature) :
    SlotsOk (initialDelivery s (MonitorUser.create uid sig)) := by
  have : 2 ≤ negotiatedQueueSize sig := le_max_left _ _
  simp only [SlotsOk, initialDelivery, MonitorUser.create, List.nil_append, List.length_singleton]
  omega

theorem slotsOk_pushToUser (s : Payload) (u : MonitorUser) (c o : BitSet) (h : SlotsOk u) :
    SlotsOk (pushToUser s u c o) := by
  unfold pushToUser
  split
  · rename_i hp
    have hfree : 0 < u.free := by
      simp only [MonitorUser.mayPush, Bool.and_eq_true, decide_eq_true_eq] at hp
      exact hp.1
    simp only [SlotsOk, List.length_append, List.length_singleton] at h ⊢
    omega
  · exact h

theorem slotsOk_deliver (s : Payload) (u : MonitorUser) (c o : BitSet) (h : SlotsOk u) :
    SlotsOk (deliver s u c o) := by
  unfold deliver
  split
  · exact h
  · exact slotsOk_pushToUser s u c o h

theorem slotsOk_poll (u : MonitorUser) (h : SlotsOk u) : SlotsOk u.poll.2 := by
  unfold MonitorUser.poll
  split
  · split
    · exact h
    · rename_i e rest hq
      simp only [SlotsOk, hq, List.length_cons] at h ⊢
      omega
  · exact h

theorem slotsOk_rePush (s : Payload) (u : MonitorUser) (h : SlotsOk u) :
    SlotsOk (rePush s u) := by
  unfold rePush
  split
  · exact slotsOk_pushToUser s _ ∅ ∅ h
  · exact h

theorem slotsOk_release (s : Payload) (u : MonitorUser) (h : SlotsOk u) :
    SlotsOk (u.release s) := by
  unfold MonitorUser.release
  split
  · exact h
  · rename_i hh
    apply slotsOk_rePush
    simp only [SlotsOk] at h ⊢
    omega

theorem slotsOk_ackRequest (s : Payload) (u : MonitorUser) (n : ℕ) (h : SlotsOk u) :
    SlotsOk (u.ackRequest s n) := by
  unfold MonitorUser.ackRequest
  split
  · exact slotsOk_rePush s _ h
  · exact h

theorem pushToUser_queueSize (s : Payload) (u : MonitorUser) (c o : BitSet) :
    (pushToUser s u c o).queueSize = u.queueSize := by
  unfold pushToUser; split <;> rfl

theorem deliver_queueSize (s : Payload) (u : MonitorUser) (c o : BitSet) :
    (deliver s u c o).queueSize = u.queueSize := by
  unfold deliver; split
  · rfl
  · exact pushToUser_queueSize s u c o

theorem poll_queueSize (u : MonitorUser) : u.poll.2.queueSize = u.queueSize := by
  unfold MonitorUser.poll
  split
  · split <;> rfl
  · rfl

theorem rePush_queueSize (s : Payload) (u : MonitorUser) :
    (rePush s u).queueSize = u.queueSize := by
  unfold rePush; split
  · exact pushToUser_queueSize s _ ∅ ∅
  · rfl

theorem release_queueSize (s : Payload) (u : MonitorUser) :
    (u.release s).queueSize = u.queueSize := by
  unfold MonitorUser.release; split
  · rfl
  · exact rePush_queueSize s _

theorem ackRequest_queueSize (s : Payload) (u : MonitorUser) (n : ℕ) :
    (u.ackRequest s n).queueSize = u.queueSize := by
  unfold MonitorUser.ackRequest; split
  · exact rePush_queueSize s _
  · rfl

theorem users_ok_modify (f : MonitorUser → MonitorUser) (uid N : ℕ) (us : List MonitorUser)
    (hf : ∀ u, SlotsOk u → SlotsOk (f u)) (hq : ∀ u, (f u).queueSize = u.queueSize)
    (h : ∀ u ∈ us, SlotsOk u ∧ u.queueSize = N) :
    ∀ u ∈ modifyUser uid f us, SlotsOk u ∧ u.queueSize = N := by
  intro u hu
  simp only [modifyUser, List.mem_map] at hu
  obtain ⟨v, hv, rfl⟩ := hu
  have := h v hv
  split
  · exact ⟨hf v this.1, by rw [hq]; exact this.2⟩
  · exact this

theorem step_signature (m : MonitorCacheEntry) (a : MonAction) :
    (m.step a).signature = m.signature := by
  cases a <;> try rfl
  case poll uid =>
    simp only [MonitorCacheEntry.step, MonitorCacheEntry.poll]
    cases m.findUser uid <;> rfl

theorem step_users_ok (m : MonitorCacheEntry) (a : MonAction)
    (h : ∀ u ∈ m.users, SlotsOk u ∧ u.queueSize = negotiatedQueueSize m.signature) :
    ∀ u ∈ (m.step a).users,
      SlotsOk u ∧ u.queueSize = negotiatedQueueSize (m.step a).signature := by
  rw [step_signature]
  cases a with
  | attach uid =>
      intro u hu
      simp only [MonitorCacheEntry.step, MonitorCacheEntry.attach, List.mem_append,
        List.mem_singleton] at hu
      rcases hu with hu | rfl
      · exact h u hu
      · split
        · exact ⟨slotsOk_initialDelivery _ _ _, rfl⟩
        · exact ⟨slotsOk_create _ _, rfl⟩
  | onEvent d c o =>
      intro u hu
      simp only [MonitorCacheEntry.step, MonitorCacheEntry.onEvent, List.mem_map] at hu
      obtain ⟨v, hv, rfl⟩ := hu
      exact ⟨slotsOk_deliver _ _ _ _ (h v hv).1, by rw [deliver_queueSize]; exact (h v hv).2⟩
  | poll uid =>
      simp only [MonitorCacheEntry.step, MonitorCacheEntry.poll]
      cases m.findUser uid with
      | none => exact h
      | some w =>
          exact users_ok_modify _ uid _ _ (fun u => slotsOk_poll u) poll_queueSize h
  | release uid =>
      exact users_ok_modify _ uid _ _ (fun u => slotsOk_release _ u) (release_queueSize _) h
  | ackRequest uid n =>
      exact users_ok_modify _ uid _ _ (fun u => slotsOk_ackRequest _ u n)
        (fun u => ackRequest_queueSize _ u n) h
  | detach uid =>
      intro u hu
      simp only [MonitorCacheEntry.step, MonitorCacheEntry.detach, List.mem_filter] at hu
      exact h u hu.1
  | start uid =>
      exact users_ok_modify _ uid _ _ (fun u hu => hu) (fun u => rfl) h
  | stop uid =>
      exact users_ok_modify _ uid _ _ (fun u hu => hu) (fun u => rfl) h

theorem run_users_ok (acts : List MonAction) (m : MonitorCacheEntry)
    (h : ∀ u ∈ m.users, SlotsOk u ∧ u.queueSize = negotiatedQueueSize m.signature) :
    ∀ u ∈ (m.run acts).users,
      SlotsOk u ∧ u.queueSize = negotiatedQueueSize (m.run acts).signature := by
  induction acts generalizing m with
  | nil => exact h
  | cons a rest ih => exact ih (m.step a) (step_users_ok m a h)

theorem run_signature (acts : List MonAction) (m : MonitorCacheEntry) :
    (m.run acts).signature = m.signature := by
  induction acts generalizing m with
  | nil => rfl
  | cons a rest ih =>
      show ((m.step a).run rest).signature = _
      rw [ih, step_signature]

/-- Claim C9: in every state reached from an upstream subscription without
users by attach, onEvent, poll, release, ackRequest and detach (and start and
stop), the queue of every attached user holds at most its negotiated
queueSize elements: its slots are split between queue, held elements and free
list. -/
theorem bounded_queue (m : MonitorCacheEntry) (acts : List MonAction)
    (h0 : m.users = []) :
    ∀ u ∈ (m.run acts).users,
      u.queue.length ≤ u.queueSize ∧
      u.queueSize = negotiatedQueueSize m.signature ∧
      u.queue.length + u.held + u.free = u.queueSize := by
  intro u hu
  have h := run_users_ok acts m (by simp [h0]) u hu
  rw [run_signature] at h
  have hs : u.queue.length + u.held + u.free = u.queueSize := h.1
  exact ⟨by omega, h.2, hs⟩

/-! ### Merge and fan-out -/

theorem mergeFrom_get (c : BitSet) (s : Payload) :
    ∀ (pos : ℕ) (d : Payload) (k : ℕ), d.length = s.length →
      (mergeFrom c pos s d).get? k =
        if covers c (pos + k) then d.get? k else s.get? k := by
  induction s with
  | nil =>
      intro pos d k hd
      have : d = [] := List.length_eq_zero.mp hd
      subst this
      simp [mergeFrom]
  | cons a s ih =>
      intro pos d k hd
      cases d with
      | nil => simp at hd
      | cons b d =>
          simp only [List.length_cons, Nat.add_right_cancel_iff] at hd
          cases k with
          | zero =>
              simp only [mergeFrom, List.get?_cons_zero, Nat.add_zero]
              split <;> rfl
          | succ k =>
              simp only [mergeFrom, List.get?_cons_succ]
              rw [ih (pos + 1) d k hd]
              have : pos + 1 + k = pos + (k + 1) := by omega
              rw [this]

theorem mergeDelta_fieldAt (s d : Payload) (c : BitSet) (h : d.length = s.length) (pos : ℕ) :
    fieldAt (mergeDelta s d c) pos =
      if covers c pos then fieldAt d pos else fieldAt s pos := by
  cases pos with
  | zero => simp [fieldAt]
  | succ k =>
      simp only [fieldAt, mergeDelta]
      rw [mergeFrom_get c s 1 d k h]
      have : 1 + k = k + 1 := by omega
      rw [this]

theorem deliver_enqueues (s : Payload) (u : MonitorUser) (c o : BitSet)
    (hov : u.inOverflow = false) (hfree : 0 < u.free)
    (hc : u.changed = ∅) (ho : u.overrun = ∅)
    (hp : u.pipeline = false ∨ 0 < u.credit) :
    (deliver s u c o).queue = u.queue ++ [{ payload := s, changed := c, overrun := o }] ∧
    (deliver s u c o).running = u.running := by
  have hm : u.mayPush = true := by
    unfold MonitorUser.mayPush
    rcases hp with hp | hp <;> simp [hfree, hp]
  simp [deliver, hov, pushToUser, hm, hc, ho]

/-- Claim C6 as stated fails: a pipelined user without credit is not in
overflow, has free slots and empty accumulated bitsets, yet an upstream event
puts nothing on its queue. -/
theorem fanout_without_credit_counterexample :
    ¬ (∀ u ∈ pipelinedIdle.users,
        u.inOverflow = false → 0 < u.free → u.changed = ∅ → u.overrun = ∅ →
        ∃ u' ∈ (pipelinedIdle.onEvent [42, 0] {1} ∅).users,
          u'.uid = u.uid ∧
          u'.queue = u.queue ++
            [{ payload := (pipelinedIdle.onEvent [42, 0] {1} ∅).snapshot
               changed := {1}, overrun := ∅ }]) := by
  decide

/-- Claim C6, amended: an upstream event (delta, changed, overrun) of the
snapshot's type leaves the new snapshot equal to delta on every field that
changed indicates (its own position, or position 0 for the whole value) and
equal to the old snapshot on every other field; every attached user that is
not in overflow, has a free slot, has empty accumulated bitsets and is either
not pipelined or has credit is enqueued one element carrying the new snapshot
with the event's changed and overrun, so two such users with empty queues
poll identical elements. -/
theorem merge_and_fanout (m : MonitorCacheEntry) (delta : Payload) (changed overrun : BitSet)
    (hlen : delta.length = m.snapshot.length) :
    (∀ pos, fieldAt (m.onEvent delta changed overrun).snapshot pos =
        if covers changed pos then fieldAt delta pos else fieldAt m.snapshot pos) ∧
    (∀ u ∈ m.users,
      u.inOverflow = false → 0 < u.free → u.changed = ∅ → u.overrun = ∅ →
      (u.pipeline = false ∨ 0 < u.credit) →
      deliver (m.onEvent delta changed overrun).snapshot u changed overrun ∈
          (m.onEvent delta changed overrun).users ∧
      (deliver (m.onEvent delta changed overrun).snapshot u changed overrun).queue =
        u.queue ++ [{ payload := (m.onEvent delta changed overrun).snapshot
                      changed := changed, overrun := overrun }]) ∧
    (∀ uid u, m.findUser uid = some u →
      u.inOverflow = false → 0 < u.free → u.changed = ∅ → u.overrun = ∅ →
      (u.pipeline = false ∨ 0 < u.credit) → u.queue = [] → u.running = true →
      ((m.onEvent delta changed overrun).poll uid).1 =
        some { payload := (m.onEvent delta changed overrun).snapshot
               changed := changed, overrun := overrun }) := by
  refine ⟨fun pos => mergeDelta_fieldAt m.snapshot delta changed hlen pos, ?_, ?_⟩
  · intro u hu hov hfree hc ho hp
    refine ⟨?_, (deliver_enqueues _ u changed overrun hov hfree hc ho hp).1⟩
    simp only [MonitorCacheEntry.onEvent, List.mem_map]
    exact ⟨u, hu, rfl⟩
  · intro uid u hu hov hfree hc ho hp hq hr
    have h1 := findUser_onEvent m uid delta changed overrun
    rw [hu] at h1
    simp only [Option.map_some'] at h1
    rw [poll_fst _ uid _ h1]
    have h2 := deliver_enqueues (mergeDelta m.snapshot delta changed) u changed overrun
      hov hfree hc ho hp
    simp only [MonitorUser.poll, h2.2, hr, h2.1, hq, List.nil_append, if_true]
    rfl

/-- Witness for claim C6, the update of `test_share`: `x = 42` is posted with
only `x` marked, and both monitors poll `x = 42, y = 2`, changed = {1},
overrun empty. -/
theorem merge_and_fanout_witness :
    (XYRecord.post 42 43 true false).1.length = sharedIdle.snapshot.length ∧
    XYRecord.post 42 43 true false = ([42, 0], {1}) ∧
    (sharedIdle.onEvent (XYRecord.post 42 43 true false).1
        (XYRecord.post 42 43 true false).2 ∅).snapshot = [42, 2] ∧
    ((sharedIdle.onEvent (XYRecord.post 42 43 true false).1
        (XYRecord.post 42 43 true false).2 ∅).poll 1).1 =
      some { payload := [42, 2], changed := {1}, overrun := ∅ } ∧
    ((sharedIdle.onEvent (XYRecord.post 42 43 true false).1
        (XYRecord.post 42 43 true false).2 ∅).poll 2).1 =
      some { payload := [42, 2], changed := {1}, overrun := ∅ } :=
  have h := merge_and_fanout sharedIdle (XYRecord.post 42 43 true false).1
    (XYRecord.post 42 43 true false).2 ∅ (by decide)
  ⟨by decide, by decide, by decide,
    (h.2.2 1 { MonitorUser.create 1 (makeRequest 2 false) with initialSent := true }
      (by decide) (by decide) (by decide) (by decide) (by decide) (by decide) (by decide)
      (by decide)).trans (by decide),
    (h.2.2 2 { MonitorUser.create 2 (makeRequest 2 false) with initialSent := true }
      (by decide) (by decide) (by decide) (by decide) (by decide) (by decide) (by decide)
      (by decide)).trans (by decide)⟩

/-! ### Monitor deduplication -/

theorem assocModify_keys {α β : Type} [DecidableEq α] (k : α) (f : β → β)
    (l : List (α × β)) : (assocModify k f l).map Prod.fst = l.map Prod.fst := by
  induction l with
  | nil => rfl
  | cons kv rest ih =>
      obtain ⟨k', v⟩ := kv
      by_cases h : k' = k <;> simp [assocModify, h, ih]

theorem assocFind_modify {α β : Type} [DecidableEq α] (k : α) (f : β → β)
    (l : List (α × β)) : assocFind k (assocModify k f l) = (assocFind k l).map f := by
  induction l with
  | nil => rfl
  | cons kv rest ih =>
      obtain ⟨k', v⟩ := kv
      by_cases h : k' = k <;> simp [assocModify, assocFind, h, ih]

theorem assocFind_append_new {α β : Type} [DecidableEq α] (k : α) (v : β)
    (l : List (α × β)) (h : assocFind k l = none) :
    assocFind k (l ++ [(k, v)]) = some v := by
  induction l with
  | nil => simp [assocFind]
  | cons kv rest ih =>
      obtain ⟨k', v'⟩ := kv
      by_cases hk : k' = k
      · simp [assocFind, hk] at h
      · simp only [assocFind, hk, if_false] at h
        simp [assocFind, hk, ih h]

theorem attachMonitor_signatures (e : ChannelCacheEntry) (sig : RequestSignature) (uid : ℕ)
    (h : e.signatures.Nodup) : (e.attachMonitor sig uid).2.signatures.Nodup := by
  unfold ChannelCacheEntry.attachMonitor
  cases hf : assocFind sig e.mons with
  | some m =>
      simp only [ChannelCacheEntry.signatures, assocModify_keys]
      exact h
  | none =>
      have hn := (assocFind_eq_none_iff sig e.mons).1 hf
      simp only [ChannelCacheEntry.signatures, List.map_append, List.map_cons, List.map_nil]
      rw [List.nodup_append]
      refine ⟨h, List.nodup_singleton _, ?_⟩
      intro a ha hb
      simp only [List.mem_singleton] at hb
      subst hb
      exact hn ha

theorem detachMonitor_signatures (e : ChannelCacheEntry) (uid : ℕ) :
    (e.detachMonitor uid).signatures = e.signatures := by
  simp [ChannelCacheEntry.detachMonitor, ChannelCacheEntry.signatures, Function.comp_def]

theorem run_signatures_nodup (acts : List ChanAction) (e : ChannelCacheEntry)
    (h : e.signatures.Nodup) : (e.run acts).signatures.Nodup := by
  induction acts generalizing e with
  | nil => exact h
  | cons a rest ih =>
      apply ih
      cases a with
      | attachMonitor sig uid => exact attachMonitor_signatures e sig uid h
      | detachMonitor uid =>
          show (e.detachMonitor uid).signatures.Nodup
          rw [detachMonitor_signatures]; exact h

theorem attach_mid (m : MonitorCacheEntry) (uid : ℕ) : (m.attach uid).mid = m.mid := rfl

theorem mem_uids_attach (m : MonitorCacheEntry) (uid : ℕ) :
    uid ∈ (m.attach uid).users.map (fun u => u.uid) := by
  simp only [MonitorCacheEntry.attach, List.map_append, List.mem_append, List.map_cons,
    List.map_nil, List.mem_singleton]
  right
  cases m.connected <;> rfl

theorem mem_uids_attach_of_mem (m : MonitorCacheEntry) (uid uid' : ℕ)
    (h : uid' ∈ m.users.map (fun u => u.uid)) :
    uid' ∈ (m.attach uid).users.map (fun u => u.uid) := by
  simp only [MonitorCacheEntry.attach, List.map_append, List.mem_append]
  exact Or.inl h

/-- After an attach the map binds the signature to the monitor whose identity
was returned, and the user is among its subscribers. -/
theorem attachMonitor_find (e : ChannelCacheEntry) (sig : RequestSignature) (uid : ℕ) :
    ∃ m, assocFind sig (e.attachMonitor sig uid).2.mons = some m ∧
      m.mid = (e.attachMonitor sig uid).1 ∧
      uid ∈ m.users.map (fun u => u.uid) ∧
      ∀ m₀, assocFind sig e.mons = some m₀ →
        ∀ uid' ∈ m₀.users.map (fun u => u.uid), uid' ∈ m.users.map (fun u => u.uid) := by
  unfold ChannelCacheEntry.attachMonitor
  cases hf : assocFind sig e.mons with
  | some m₀ =>
      refine ⟨m₀.attach uid, ?_, rfl, mem_uids_attach m₀ uid, ?_⟩
      · simp [assocFind_modify, hf]
      · intro m₁ hm₁ uid' h'
        simp only [Option.some.injEq] at hm₁
        subst hm₁
        exact mem_uids_attach_of_mem _ uid uid' h'
  | none =>
      refine ⟨(MonitorCacheEntry.create e.nextMid sig).attach uid, ?_, rfl,
        mem_uids_attach _ uid, ?_⟩
      · exact assocFind_append_new sig _ e.mons hf
      · intro m₁ hm₁
        simp at hm₁

theorem attachMonitor_fst_of_find (e : ChannelCacheEntry) (sig : RequestSignature) (uid : ℕ)
    (m : MonitorCacheEntry) (h : assocFind sig e.mons = some m) :
    (e.attachMonitor sig uid).1 = m.mid := by
  unfold ChannelCacheEntry.attachMonitor
  simp [h]

/-- Claim C7: for a channel entry whose monitor map is a map (no signature
bound twice), every sequence of attachMonitor and
detachMonitor calls leaves at most one MonitorEntry per RequestSignature; two
attaches with equal signatures return the same MonitorEntry, which the map
binds to that signature, and both users are in its subscriber list. -/
theorem monitor_dedup (e : ChannelCacheEntry) (acts : List ChanAction)
    (sig : RequestSignature) (uid₁ uid₂ : ℕ)
    (hwf : e.signatures.Nodup) :
    (∀ s, (e.run acts).signatures.count s ≤ 1) ∧
    ((e.attachMonitor sig uid₁).2.attachMonitor sig uid₂).1 = (e.attachMonitor sig uid₁).1 ∧
    ∃ m, assocFind sig ((e.attachMonitor sig uid₁).2.attachMonitor sig uid₂).2.mons = some m ∧
      m.mid = (e.attachMonitor sig uid₁).1 ∧
      uid₁ ∈ m.users.map (fun u => u.uid) ∧
      uid₂ ∈ m.users.map (fun u => u.uid) := by
  refine ⟨fun s => List.nodup_iff_count_le_one.1 (run_signatures_nodup acts e hwf) s, ?_⟩
  obtain ⟨m₁, hm₁, hid₁, hu₁, _⟩ := attachMonitor_find e sig uid₁
  obtain ⟨m₂, hm₂, hid₂, hu₂, hkeep⟩ := attachMonitor_find (e.attachMonitor sig uid₁).2 sig uid₂
  have hsame : ((e.attachMonitor sig uid₁).2.attachMonitor sig uid₂).1 = m₁.mid :=
    attachMonitor_fst_of_find _ sig uid₂ m₁ hm₁
  refine ⟨by rw [hsame, hid₁], m₂, hm₂, by rw [hid₂, hsame, hid₁], hkeep m₁ hm₁ uid₁ hu₁, hu₂⟩
/-- Witness for claim C7, the two monitors of `test_share` on a fresh channel
entry: one MonitorEntry is created and both attaches return it. -/
theorem monitor_dedup_witness :
    (ChannelCacheEntry.fresh "test1").signatures.Nodup ∧
    (((ChannelCacheEntry.fresh "test1").attachMonitor (makeRequest 2 false) 1).2.attachMonitor
        (makeRequest 2 false) 2).1 =
      ((ChannelCacheEntry.fresh "test1").attachMonitor (makeRequest 2 false) 1).1 ∧
    ((ChannelCacheEntry.fresh "test1").run
        [ChanAction.attachMonitor (makeRequest 2 false) 1,
         ChanAction.attachMonitor (makeRequest 2 false) 2]).signatures.count
      (makeRequest 2 false) ≤ 1 :=
  have h := monitor_dedup (ChannelCacheEntry.fresh "test1")
    [ChanAction.attachMonitor (makeRequest 2 false) 1,
     ChanAction.attachMonitor (makeRequest 2 false) 2]
    (makeRequest 2 false) 1 2 (by decide)
  ⟨by decide, h.2.1, h.1 (makeRequest 2 false)⟩

/-! ### Entry-level calls seen from one user -/

theorem start_uid (u : MonitorUser) : u.start.uid = u.uid := rfl

theorem stop_uid (u : MonitorUser) : u.stop.uid = u.uid := rfl

theorem findUser_uid (m : MonitorCacheEntry) (uid : ℕ) (u : MonitorUser)
    (h : m.findUser uid = some u) : u.uid = uid := by
  have := List.find?_some h
  simpa using this

theorem find_modifyUser_any (f : MonitorUser → MonitorUser) (hf : ∀ u, (f u).uid = u.uid)
    (uid' uid : ℕ) (us : List MonitorUser) (u : MonitorUser)
    (h : us.find? (fun v => decide (v.uid = uid)) = some u) :
    (modifyUser uid' f us).find? (fun v => decide (v.uid = uid)) =
      some (if uid' = uid then f u else u) := by
  have hu : u.uid = uid := by simpa using List.find?_some h
  have hg : ∀ v : MonitorUser, (if v.uid = uid' then f v else v).uid = v.uid := by
    intro v; split
    · exact hf v
    · rfl
  have := find_map_uid (fun v => if v.uid = uid' then f v else v) hg uid us
  unfold modifyUser
  rw [this, h]
  simp only [Option.map_some', hu]
  by_cases hc : uid' = uid
  · simp [hc]
  · simp [hc, Ne.symm hc]

/-- What an entry-level call does to an attached user is what at most one
user-level action does to it, unless the call detaches that user. -/
theorem step_projects (m : MonitorCacheEntry) (a : MonAction) (uid : ℕ) (u : MonitorUser)
    (h : m.findUser uid = some u) :
    a = MonAction.detach uid ∨
    ∃ ua : List UserAction, ua.length ≤ 1 ∧
      (m.step a).findUser uid = some (ua.foldl MonitorUser.step u) := by
  have h' : m.users.find? (fun v => decide (v.uid = uid)) = some u := h
  cases a with
  | attach uid' =>
      refine Or.inr ⟨[], by simp, ?_⟩
      simp only [MonitorCacheEntry.step, MonitorCacheEntry.attach, MonitorCacheEntry.findUser,
        List.find?_append, h', List.foldl_nil]
      rfl
  | onEvent d c o =>
      refine Or.inr ⟨[UserAction.event (mergeDelta m.snapshot d c) c o], by simp, ?_⟩
      have := findUser_onEvent m uid d c o
      rw [h] at this
      exact this
  | poll uid' =>
      simp only [MonitorCacheEntry.step, MonitorCacheEntry.poll]
      cases hf : m.findUser uid' with
      | none => exact Or.inr ⟨[], by simp, h⟩
      | some w =>
          have := find_modifyUser_any (fun v => v.poll.2) poll_uid uid' uid m.users u h'
          by_cases hc : uid' = uid
          · refine Or.inr ⟨[UserAction.poll], by simp, ?_⟩
            simpa [hc, MonitorCacheEntry.findUser, MonitorUser.step] using this
          · refine Or.inr ⟨[], by simp, ?_⟩
            simpa [hc, MonitorCacheEntry.findUser] using this
  | release uid' =>
      have := find_modifyUser_any (MonitorUser.release m.snapshot) (release_uid m.snapshot)
        uid' uid m.users u h'
      by_cases hc : uid' = uid
      · refine Or.inr ⟨[UserAction.release m.snapshot], by simp, ?_⟩
        simpa [hc, MonitorCacheEntry.findUser, MonitorUser.step, MonitorCacheEntry.step,
          MonitorCacheEntry.release] using this
      · refine Or.inr ⟨[], by simp, ?_⟩
        simpa [hc, MonitorCacheEntry.findUser, MonitorCacheEntry.step,
          MonitorCacheEntry.release] using this
  | ackRequest uid' n =>
      have := find_modifyUser_any (fun v => v.ackRequest m.snapshot n)
        (fun v => ackRequest_uid m.snapshot v n) uid' uid m.users u h'
      by_cases hc : uid' = uid
      · refine Or.inr ⟨[UserAction.ackRequest m.snapshot n], by simp, ?_⟩
        simpa [hc, MonitorCacheEntry.findUser, MonitorUser.step, MonitorCacheEntry.step,
          MonitorCacheEntry.ackRequest] using this
      · refine Or.inr ⟨[], by simp, ?_⟩
        simpa [hc, MonitorCacheEntry.findUser, MonitorCacheEntry.step,
          MonitorCacheEntry.ackRequest] using this
  | detach uid' =>
      by_cases hc : uid' = uid
      · exact Or.inl (by rw [hc])
      · refine Or.inr ⟨[], by simp, ?_⟩
        have hu : u.uid = uid := findUser_uid m uid u h
        simp only [MonitorCacheEntry.step, MonitorCacheEntry.detach, MonitorCacheEntry.findUser,
          List.foldl_nil]
        rw [List.find?_filter]
        rw [← h']
        congr 1
        funext v
        by_cases hv : v.uid = uid
        · have : ¬ uid = uid' := Ne.symm hc
          simp [hv, this]
        · simp [hv]
  | start uid' =>
      have := find_modifyUser_any MonitorUser.start start_uid uid' uid m.users u h'
      by_cases hc : uid' = uid
      · refine Or.inr ⟨[UserAction.start], by simp, ?_⟩
        simpa [hc, MonitorCacheEntry.findUser, MonitorUser.step, MonitorCacheEntry.step] using this
      · refine Or.inr ⟨[], by simp, ?_⟩
        simpa [hc, MonitorCacheEntry.findUser, MonitorCacheEntry.step] using this
  | stop uid' =>
      have := find_modifyUser_any MonitorUser.stop stop_uid uid' uid m.users u h'
      by_cases hc : uid' = uid
      · refine Or.inr ⟨[UserAction.stop], by simp, ?_⟩
        simpa [hc, MonitorCacheEntry.findUser, MonitorUser.step, MonitorCacheEntry.step] using this
      · refine Or.inr ⟨[], by simp, ?_⟩
        simpa [hc, MonitorCacheEntry.findUser, MonitorCacheEntry.step] using this

/-! ### No loss of change -/

theorem pushToUser_cases (s : Payload) (u : MonitorUser) (c o : BitSet) :
    (pushToUser s u c o).queue =
        u.queue ++ [{ payload := s, changed := u.changed ∪ c, overrun := u.overrun ∪ o }] ∨
    ((pushToUser s u c o).queue = u.queue ∧ (pushToUser s u c o).changed = u.changed ∪ c) := by
  unfold pushToUser
  split
  · exact Or.inl rfl
  · exact Or.inr ⟨rfl, rfl⟩

theorem rePush_cases (s : Payload) (u : MonitorUser) :
    (rePush s u).queue =
        u.queue ++ [{ payload := s, changed := u.changed, overrun := u.overrun }] ∨
    ((rePush s u).queue = u.queue ∧ (rePush s u).changed = u.changed) := by
  unfold rePush
  split
  · have := pushToUser_cases s { u with inOverflow := false } ∅ ∅
    simpa using this
  · exact Or.inr ⟨rfl, rfl⟩

/-- Every action either puts exactly one element on the queue, whose changed
bitset holds everything accumulated plus what the action marks, or puts none
and keeps all of that accumulated. -/
theorem step_cases (u : MonitorUser) (a : UserAction) :
    (∃ e, (u.step a).queue = u.queue ++ [e] ∧ u.changed ∪ a.marks ⊆ e.changed) ∨
    ((u.step a).queue.length ≤ u.queue.length ∧ u.changed ∪ a.marks ⊆ (u.step a).changed) := by
  cases a with
  | event s c o =>
      simp only [MonitorUser.step, UserAction.marks, deliver]
      split
      · exact Or.inr ⟨le_refl _, subset_refl _⟩
      · rcases pushToUser_cases s u c o with h | h
        · exact Or.inl ⟨_, h, subset_refl _⟩
        · exact Or.inr ⟨by rw [h.1], by rw [h.2]⟩
  | poll =>
      simp only [MonitorUser.step, UserAction.marks, MonitorUser.poll, Finset.union_empty]
      right
      split
      · split
        · exact ⟨le_refl _, subset_refl _⟩
        · rename_i e rest hq
          exact ⟨by simp [hq], subset_refl _⟩
      · exact ⟨le_refl _, subset_refl _⟩
  | release s =>
      simp only [MonitorUser.step, UserAction.marks, MonitorUser.release, Finset.union_empty]
      split
      · exact Or.inr ⟨le_refl _, subset_refl _⟩
      · rcases rePush_cases s { u with held := u.held - 1, free := u.free + 1 } with h | h
        · exact Or.inl ⟨_, h, subset_refl _⟩
        · exact Or.inr ⟨by rw [h.1], by rw [h.2]⟩
  | ackRequest s n =>
      simp only [MonitorUser.step, UserAction.marks, MonitorUser.ackRequest, Finset.union_empty]
      split
      · rcases rePush_cases s { u with credit := u.credit + n } with h | h
        · exact Or.inl ⟨_, h, subset_refl _⟩
        · exact Or.inr ⟨by rw [h.1], by rw [h.2]⟩
      · exact Or.inr ⟨le_refl _, subset_refl _⟩
  | start => exact Or.inr ⟨le_refl _, by simp [MonitorUser.step, MonitorUser.start, UserAction.marks]⟩
  | stop => exact Or.inr ⟨le_refl _, by simp [MonitorUser.step, MonitorUser.stop, UserAction.marks]⟩

theorem enqueued_append (u u' : MonitorUser) (e : MonitorElement)
    (h : u'.queue = u.queue ++ [e]) : enqueued u u' = some e := by
  simp [enqueued, h]

theorem enqueued_none (u u' : MonitorUser) (h : u'.queue.length ≤ u.queue.length) :
    enqueued u u' = none := by
  simp [enqueued, Nat.not_lt.2 h]

theorem observed_step_inv (o : Observed) (a : UserAction)
    (hp : o.pending ⊆ o.user.changed)
    (hl : ∀ d ∈ o.log, d.pending ⊆ d.elem.changed) :
    (o.step a).pending ⊆ (o.step a).user.changed ∧
    ∀ d ∈ (o.step a).log, d.pending ⊆ d.elem.changed := by
  have hsub : o.pending ∪ a.marks ⊆ o.user.changed ∪ a.marks :=
    Finset.union_subset_union hp (subset_refl _)
  rcases step_cases o.user a with ⟨e, hq, he⟩ | ⟨hq, hc⟩
  · simp only [Observed.step, enqueued_append _ _ e hq]
    refine ⟨Finset.empty_subset _, ?_⟩
    intro d hd
    simp only [List.mem_append, List.mem_singleton] at hd
    rcases hd with hd | rfl
    · exact hl d hd
    · exact hsub.trans he
  · simp only [Observed.step, enqueued_none _ _ hq]
    exact ⟨hsub.trans hc, hl⟩

theorem observed_run_inv (acts : List UserAction) (o : Observed)
    (hp : o.pending ⊆ o.user.changed)
    (hl : ∀ d ∈ o.log, d.pending ⊆ d.elem.changed) :
    ∀ d ∈ (acts.foldl Observed.step o).log, d.pending ⊆ d.elem.changed := by
  induction acts generalizing o with
  | nil => exact hl
  | cons a rest ih =>
      have h := observed_step_inv o a hp hl
      exact ih (o.step a) h.1 h.2

/-- Claim C8: for every user and every interleaving of upstream events,
polls, releases (and acknowledgements, starts and stops), each field marked
changed by some upstream event since the previous delivery to the user is in
the changed bitset of the next delivery, or it was marked more than once in
that interval and is in that delivery's overrun bitset. -/
theorem no_loss_of_change (u : MonitorUser) (acts : List UserAction) :
    ∀ d ∈ (observe u acts).log, ∀ f ∈ d.pending,
      f ∈ d.elem.changed ∨ (f ∈ d.repeated ∧ f ∈ d.elem.overrun) := by
  intro d hd f hf
  left
  exact observed_run_inv acts _ (Finset.empty_subset _) (by simp) d hd hf

/-- Witness for claim C8, the third element of `test_overflow_downstream`:
`x` was posted twice (52, 53) since the previous delivery, and the element
carries `x = 53` with `x` in both changed and overrun. -/
theorem no_loss_of_change_witness :
    overflowDelivery ∈ (observe overflowUser overflowActs).log ∧
    1 ∈ overflowDelivery.pending ∧
    (1 ∈ overflowDelivery.elem.changed ∨
      (1 ∈ overflowDelivery.repeated ∧ 1 ∈ overflowDelivery.elem.overrun)) :=
  ⟨by decide, by decide,
   no_loss_of_change overflowUser overflowActs overflowDelivery (by decide) 1 (by decide)⟩

/-! ### Overflow -/

/-- Claim C5 as stated fails: with queueSize 3, when the user polled and
released its initial element before `x` = 50, 51, 52, 53 are posted, three
slots take 50, 51, 52 and the re-push after the first release carries 53
without overrun: the user polls four elements, not 50, 51 and an overrun 53.
A pipelined user without credit polls nothing at all. -/
theorem overflow_after_release_counterexample :
    overflowReleased.pollReleases 1 5 =
      [some { payload := [50, 2], changed := {1}, overrun := ∅ },
       some { payload := [51, 2], changed := {1}, overrun := ∅ },
       some { payload := [52, 2], changed := {1}, overrun := ∅ },
       some { payload := [53, 2], changed := {1}, overrun := ∅ },
       none] ∧
    overflowReleased.pollReleases 1 4 ≠
      [some { payload := [50, 2], changed := {1}, overrun := ∅ },
       some { payload := [51, 2], changed := {1}, overrun := ∅ },
       some { payload := [53, 2], changed := {1}, overrun := {1} },
       none] ∧
    overflowReleased.syncPolls 1 4 ≠
      [some { payload := [50, 2], changed := {1}, overrun := ∅ },
       some { payload := [51, 2], changed := {1}, overrun := ∅ },
       some { payload := [53, 2], changed := {1}, overrun := {1} },
       none] ∧
    overflowPipelined.syncPolls 1 4 = [none, none, none, none] := by
  decide

theorem deliver_fill (f : ℕ) (ss : List Payload) :
    ∀ u : MonitorUser, u.inOverflow = false → u.pipeline = false →
      u.changed = ∅ → u.overrun = ∅ → ss.length ≤ u.free →
      ss.foldl (fun u s => deliver s u {f} ∅) u =
        { u with
          queue := u.queue ++ ss.map (fun s => { payload := s, changed := {f}, overrun := ∅ })
          free := u.free - ss.length } := by
  induction ss with
  | nil => intro u _ _ _ _ _; simp
  | cons s ss ih =>
      intro u hov hp hc ho hlen
      simp only [List.length_cons] at hlen
      have hfree : 0 < u.free := by omega
      have h1 : deliver s u {f} ∅ =
          { u with
            queue := u.queue ++ [{ payload := s, changed := {f}, overrun := ∅ }]
            free := u.free - 1 } := by
        cases u
        simp_all [deliver, pushToUser, MonitorUser.mayPush]
      simp only [List.foldl_cons, h1]
      have h2 := ih { u with
            queue := u.queue ++ [{ payload := s, changed := {f}, overrun := ∅ }]
            free := u.free - 1 } hov hp hc ho (by show ss.length ≤ u.free - 1; omega)
      rw [h2]
      simp only [List.map_cons, List.append_assoc, List.singleton_append, List.length_cons]
      congr 1
      omega

theorem deliver_overflow_twice (f : ℕ) (a b : Payload) (u : MonitorUser)
    (hov : u.inOverflow = false) (hc : u.changed = ∅) (ho : u.overrun = ∅)
    (hfree : u.free = 0) :
    deliver b (deliver a u {f} ∅) {f} ∅ =
      { u with inOverflow := true, changed := {f}, overrun := {f} } := by
  cases u
  simp_all [deliver, pushToUser, MonitorUser.mayPush]

theorem snapshotsAfter_length (f : ℕ) (deltas : List Payload) :
    ∀ s, (snapshotsAfter f s deltas).length = deltas.length := by
  induction deltas with
  | nil => intro s; rfl
  | cons d ds ih => intro s; simp [snapshotsAfter, ih]

theorem run_fieldEvents (f uid : ℕ) (deltas : List Payload) :
    ∀ (m : MonitorCacheEntry) (u : MonitorUser), m.findUser uid = some u →
      (m.run (fieldEvents f deltas)).findUser uid =
        some ((snapshotsAfter f m.snapshot deltas).foldl (fun u s => deliver s u {f} ∅) u) ∧
      (m.run (fieldEvents f deltas)).snapshot =
        (snapshotsAfter f m.snapshot deltas).getLastD m.snapshot := by
  induction deltas with
  | nil => intro m u h; exact ⟨h, rfl⟩
  | cons d ds ih =>
      intro m u h
      have h1 := findUser_onEvent m uid d {f} ∅
      rw [h] at h1
      simp only [Option.map_some'] at h1
      have h2 := ih (m.onEvent d {f} ∅) _ h1
      have hs : (m.onEvent d {f} ∅).snapshot = mergeDelta m.snapshot d {f} := rfl
      rw [hs] at h2
      refine ⟨h2.1, ?_⟩
      have hcons : snapshotsAfter f m.snapshot (d :: ds) =
          mergeDelta m.snapshot d {f} :: snapshotsAfter f (mergeDelta m.snapshot d {f}) ds := rfl
      rw [hcons, List.getLastD_cons]
      exact h2.2

theorem syncPoll_spec (m : MonitorCacheEntry) (uid : ℕ) (u : MonitorUser)
    (h : m.findUser uid = some u) :
    (m.syncPoll uid).1 = (u.release m.snapshot).poll.1 ∧
    (m.syncPoll uid).2.findUser uid = some (u.release m.snapshot).poll.2 ∧
    (m.syncPoll uid).2.snapshot = m.snapshot := by
  have h1 := findUser_release m uid
  rw [h] at h1
  simp only [Option.map_some'] at h1
  have h2 := findUser_poll (m.release uid) uid
  rw [h1] at h2
  unfold MonitorCacheEntry.syncPoll
  exact ⟨poll_fst _ uid _ h1, h2, by rw [poll_snapshot]; rfl⟩

theorem syncPolls_drain (uid : ℕ) (q : List MonitorElement) :
    ∀ (m : MonitorCacheEntry) (u : MonitorUser), m.findUser uid = some u →
      u.queue = q → u.running = true → u.inOverflow = false → 1 ≤ u.held →
      m.syncPolls uid (q.length + 1) = q.map some ++ [none] := by
  induction q with
  | nil =>
      intro m u h hq hr hov hh
      obtain ⟨h1, _, _⟩ := syncPoll_spec m uid u h
      have hne : ¬ u.held = 0 := by omega
      simp only [List.length_nil, Nat.zero_add, MonitorCacheEntry.syncPolls, h1, List.map_nil,
        List.nil_append]
      simp [MonitorUser.release, rePush, MonitorUser.poll, hne, hov, hr, hq]
  | cons e rest ih =>
      intro m u h hq hr hov hh
      obtain ⟨h1, h2, _⟩ := syncPoll_spec m uid u h
      have hne : ¬ u.held = 0 := by omega
      have hrel : u.release m.snapshot = { u with held := u.held - 1, free := u.free + 1 } := by
        simp [MonitorUser.release, rePush, hne, hov]
      have hpoll : (u.release m.snapshot).poll =
          (some e, { u with held := u.held - 1 + 1, free := u.free + 1, queue := rest }) := by
        rw [hrel]
        simp [MonitorUser.poll, hr, hq]
      rw [hpoll] at h1 h2
      have h3 := ih (m.syncPoll uid).2 _ h2 rfl hr hov (by show 1 ≤ u.held - 1 + 1; omega)
      show (m.syncPoll uid).1 :: (m.syncPoll uid).2.syncPolls uid (rest.length + 1) = _
      rw [h1, h3]
      rfl

theorem syncPolls_after_overflow (uid : ℕ) (m : MonitorCacheEntry) (u : MonitorUser)
    (last : MonitorElement)
    (hlast : last = { payload := m.snapshot, changed := u.changed, overrun := u.overrun })
    (h : m.findUser uid = some u) (hr : u.running = true) (hov : u.inOverflow = true)
    (hp : u.pipeline = false) (hh : 1 ≤ u.held) :
    m.syncPolls uid (u.queue.length + 2) = (u.queue ++ [last]).map some ++ [none] := by
  obtain ⟨h1, h2, _⟩ := syncPoll_spec m uid u h
  have hne : ¬ u.held = 0 := by omega
  have hrel : u.release m.snapshot =
      { u with
        held := u.held - 1
        queue := u.queue ++ [last]
        free := u.free + 1 - 1
        inOverflow := false
        changed := ∅
        overrun := ∅ } := by
    simp [MonitorUser.release, rePush, pushToUser, MonitorUser.mayPush, hne, hov, hp, hlast]
  rw [hrel] at h1 h2
  cases hq : u.queue with
  | nil =>
      rw [hq] at h1 h2
      simp only [MonitorUser.poll, hr, List.nil_append, if_true] at h1 h2
      have h3 := syncPolls_drain uid [] (m.syncPoll uid).2 _ h2 rfl rfl rfl
        (by show 1 ≤ u.held - 1 + 1; omega)
      show (m.syncPoll uid).1 :: (m.syncPoll uid).2.syncPolls uid (0 + 1) = _
      rw [h1]
      simp only [List.length_nil] at h3
      rw [h3]
      rfl
  | cons e rest =>
      rw [hq] at h1 h2
      simp only [MonitorUser.poll, hr, List.cons_append, if_true] at h1 h2
      have h3 := syncPolls_drain uid _ (m.syncPoll uid).2 _ h2 rfl rfl rfl
        (by show 1 ≤ u.held - 1 + 1; omega)
      show (m.syncPoll uid).1 :: (m.syncPoll uid).2.syncPolls uid (rest.length + 1 + 1) = _
      have hl : (rest ++ [last]).length = rest.length + 1 := by simp
      rw [hl] at h3
      rw [h1, h3]
      rfl

theorem split_last_two {α : Type} (l : List α) (k : ℕ) (h : l.length = k + 2) :
    ∃ A a b, l = A ++ [a, b] ∧ A.length = k := by
  have h1 : (l.drop k).length = 2 := by simp [h]
  obtain ⟨a, b, hab⟩ := List.length_eq_two.1 h1
  refine ⟨l.take k, a, b, ?_, by simp [h]⟩
  rw [← hab, List.take_append_drop]

/-- Claim C5, amended: overflow is most-recent-value-wins with an overrun
mark.  For every queueSize N ≥ 2, if a non-pipelined user has polled its
initial element and still holds it (the next poll gives it back), and then
N+1 upstream events each changing field f arrive before any poll, the user
polls exactly N elements in arrival order: the first N-1 carry the snapshots
after events 1..N-1 with changed = {f} and overrun empty, the N-th carries the
snapshot after the last event with changed = {f} and overrun = {f}, and the
following poll is empty. -/
theorem overflow_latest_wins (m : MonitorCacheEntry) (uid N f : ℕ) (deltas : List Payload)
    (hN : 2 ≤ N) (hq : m.signature.queueSize = N) (hp : m.signature.pipeline = false)
    (hc : m.connected = true) (hfresh : m.findUser uid = none)
    (hlen : deltas.length = N + 1) :
    (((m.attach uid).poll uid).2.run (fieldEvents f deltas)).syncPolls uid (N + 1) =
      ((snapshotsAfter f m.snapshot deltas).take (N - 1)).map
          (fun s => some { payload := s, changed := {f}, overrun := ∅ }) ++
        ((snapshotsAfter f m.snapshot deltas).drop N).map
          (fun s => some { payload := s, changed := {f}, overrun := {f} }) ++ [none] ∧
    (snapshotsAfter f m.snapshot deltas).drop N =
      [(((m.attach uid).poll uid).2.run (fieldEvents f deltas)).snapshot] := by
  -- the user after it polled its initial element
  have h1 := findUser_attach m uid hfresh
  rw [hc] at h1
  simp only [if_true] at h1
  have h2 := findUser_poll (m.attach uid) uid
  rw [h1] at h2
  simp only [Option.map_some'] at h2
  have hs : ((m.attach uid).poll uid).2.snapshot = m.snapshot := by
    rw [poll_snapshot]; rfl
  have hneg : negotiatedQueueSize m.signature = N := by
    simp only [negotiatedQueueSize, hq]; omega
  have hu : (initialDelivery m.snapshot (MonitorUser.create uid m.signature)).poll.2 =
      { MonitorUser.create uid m.signature with
        free := N - 1, held := 1, initialSent := true } := by
    simp [MonitorUser.poll, initialDelivery, MonitorUser.create, hneg]
  rw [hu] at h2
  -- the events
  obtain ⟨h3, h4⟩ := run_fieldEvents f uid deltas _ _ h2
  rw [hs] at h3 h4
  have hsl : (snapshotsAfter f m.snapshot deltas).length = (N - 1) + 2 := by
    rw [snapshotsAfter_length, hlen]; omega
  obtain ⟨A, a, b, hA, hAl⟩ := split_last_two _ _ hsl
  rw [hA] at h3 h4 ⊢
  have hfill := deliver_fill f A
    { MonitorUser.create uid m.signature with free := N - 1, held := 1, initialSent := true }
    rfl hp rfl rfl (by show A.length ≤ N - 1; omega)
  have hdrop : (A ++ [a, b]).drop N = [b] := by
    have : N = A.length + 1 := by omega
    rw [this, List.drop_append]
    rfl
  have htake : (A ++ [a, b]).take (N - 1) = A := by
    rw [← hAl]; exact List.take_left' rfl
  have hlast : (A ++ [a, b]).getLastD m.snapshot = b := by
    simp [List.getLastD_eq_getLast?]
  rw [hlast] at h4
  rw [List.foldl_append, hfill] at h3
  simp only [List.foldl_cons, List.foldl_nil] at h3
  rw [deliver_overflow_twice f a b _ rfl rfl rfl (by show N - 1 - A.length = 0; omega)] at h3
  have h5 := syncPolls_after_overflow uid _ _
    { payload := b, changed := {f}, overrun := {f} } (by rw [h4]) h3 rfl rfl hp
    (by show 1 ≤ 1; omega)
  have hcount : N + 1 = A.length + 2 := by omega
  refine ⟨?_, by rw [hdrop, h4]⟩
  rw [hdrop, htake, hcount]
  simp only [MonitorUser.create, List.nil_append, List.length_map] at h5
  rw [h5]
  simp [Function.comp_def]

/-- Witness for claim C5, `test_overflow_downstream`: queueSize 3, posts of
`x` = 50, 51, 52, 53 while the initial element is still held; the polls give
50 and 51 without overrun, then 53 with `x` overrun, then nothing. -/
theorem overflow_latest_wins_witness :
    (2 ≤ 3 ∧ (xyEntry (makeRequest 3 false)).signature.queueSize = 3 ∧
      (xyEntry (makeRequest 3 false)).signature.pipeline = false ∧
      (xyEntry (makeRequest 3 false)).connected = true ∧
      (xyEntry (makeRequest 3 false)).findUser 1 = none ∧
      overflowDeltas.length = 3 + 1) ∧
    overflowHeld.syncPolls 1 4 =
      [some { payload := [50, 2], changed := {1}, overrun := ∅ },
       some { payload := [51, 2], changed := {1}, overrun := ∅ },
       some { payload := [53, 2], changed := {1}, overrun := {1} },
       none] :=
  ⟨by decide,
   (overflow_latest_wins (xyEntry (makeRequest 3 false)) 1 3 1 overflowDeltas
      (by decide) (by decide) (by decide) (by decide) (by decide) (by decide)).1.trans
    (by decide)⟩

/-- Witness for claim C4, `test_event`: the record holds `x = 1, y = 2`, the
request asks for queueSize 2; the first poll gives that value with changed =
{0}, the second gives nothing. -/
theorem initial_delivery_witness :
    (xyEntry (makeRequest 2 false)).connected = true ∧
    (xyEntry (makeRequest 2 false)).findUser 1 = none ∧
    (((xyEntry (makeRequest 2 false)).attach 1).poll 1).1 =
      some { payload := [1, 2], changed := {0}, overrun := ∅ } ∧
    ((((xyEntry (makeRequest 2 false)).attach 1).poll 1).2.poll 1).1 = none :=
  have h := initial_delivery (xyEntry (makeRequest 2 false)) 1 (by decide) (by decide)
  ⟨by decide, by decide, h.1, h.2.1⟩

/-- Witness for claim C9, `test_overflow_downstream` after the four posts: the
user has queueSize 3 and two elements queued. -/
theorem bounded_queue_witness :
    (xyEntry (makeRequest 3 false)).users = [] ∧
    overflowedUser ∈ ((xyEntry (makeRequest 3 false)).run
      ([MonAction.attach 1, MonAction.poll 1] ++ fieldEvents 1 overflowDeltas)).users ∧
    overflowedUser.queue.length ≤ overflowedUser.queueSize :=
  ⟨rfl, by decide,
   (bounded_queue (xyEntry (makeRequest 3 false))
      ([MonAction.attach 1, MonAction.poll 1] ++ fieldEvents 1 overflowDeltas) rfl
      overflowedUser (by decide)).1⟩

/-! ## 6. The provider facade and the grace window: theorems -/

theorem assocFind_modify_ne {α β : Type} [DecidableEq α] (k k' : α) (f : β → β)
    (l : List (α × β)) (h : k' ≠ k) :
    assocFind k' (assocModify k f l) = assocFind k' l := by
  induction l with
  | nil => rfl
  | cons kv rest ih =>
      obtain ⟨k₀, v⟩ := kv
      by_cases h0 : k₀ = k
      · have : ¬ k₀ = k' := by rw [h0]; exact Ne.symm h
        simp [assocModify, assocFind, h0, this, Ne.symm h]
      · by_cases h1 : k₀ = k'
        · subst h1
          simp [assocModify, assocFind, h0]
        · simp [assocModify, assocFind, h0, h1, ih]

theorem poke_names (c : ChannelCache) (name : String) : (c.poke name).names = c.names :=
  assocModify_keys name _ c.entries

theorem poke_find (c : ChannelCache) (name : String) :
    (c.poke name).find name = (c.find name).map (fun e => { e with dropPoke := true }) :=
  assocFind_modify name _ c.entries

theorem poke_find_ne (c : ChannelCache) (name other : String) (h : other ≠ name) :
    (c.poke name).find other = c.find other :=
  assocFind_modify_ne name other _ c.entries h

theorem channelFind_provider_of_some (p : GWServerChannelProvider) (channelName : String)
    (e : ChannelCacheEntry) (hs : servedName channelName = true)
    (hf : p.cache.find (rewriteName channelName) = some e) :
    (channelFind p channelName).provider =
      { p with cache := p.cache.poke (rewriteName channelName) } := by
  unfold channelFind
  simp only [hs, if_true, hf]
  split <;> rfl

theorem channelFind_provider_of_none (p : GWServerChannelProvider) (channelName : String)
    (hs : servedName channelName = true)
    (hf : p.cache.find (rewriteName channelName) = none) :
    (channelFind p channelName).provider =
      { p with cache := p.cache.get (rewriteName channelName) } := by
  unfold channelFind
  simp only [hs, if_true, hf]

theorem channelFind_provider_unserved (p : GWServerChannelProvider) (channelName : String)
    (hs : servedName channelName = false) :
    (channelFind p channelName).provider = p := by
  unfold channelFind
  simp [hs]

/-- Claim C11 as stated fails: the cache holds an entry under `yfoo` whose
`dropPoke` is clear; `channelFind` for `yfoo`, a name that is not served,
leaves it clear. -/
theorem channelFind_poke_unserved_counterexample :
    (cacheYfooIdle.find "yfoo").map (fun e => e.dropPoke) = some false ∧
    ((channelFind { self := 0, cache := cacheYfooIdle } "yfoo").provider.cache.find
      "yfoo").map (fun e => e.dropPoke) = some false := by
  decide

/-- Claim C11, amended: for every cache state and every name that is
non-empty, begins with `x` and whose rewritten name already has an entry,
`channelFind` leaves that entry with `dropPoke = true` (and otherwise as it
was), whether or not its upstream channel is connected; no entry is added or
removed and every other entry is untouched. -/
theorem channelFind_restarts_grace (p : GWServerChannelProvider) (channelName : String)
    (e : ChannelCacheEntry) (hs : servedName channelName = true)
    (hf : p.cache.find (rewriteName channelName) = some e) :
    (channelFind p channelName).provider.cache.find (rewriteName channelName) =
      some { e with dropPoke := true } ∧
    (channelFind p channelName).provider.cache.names = p.cache.names ∧
    ∀ other, other ≠ rewriteName channelName →
      (channelFind p channelName).provider.cache.find other = p.cache.find other := by
  rw [channelFind_provider_of_some p channelName e hs hf]
  refine ⟨?_, poke_names _ _, fun other ho => poke_find_ne _ _ other ho⟩
  show (p.cache.poke (rewriteName channelName)).find (rewriteName channelName) = _
  rw [poke_find, hf]
  rfl

/-- Witness for claim C11: `xfoo` is looked up while `yfoo` is in the cache
with `dropPoke` clear. -/
theorem channelFind_restarts_grace_witness :
    servedName "xfoo" = true ∧
    ((channelFind { self := 0, cache := cacheYfooIdle } "xfoo").provider.cache.find
      "yfoo").map (fun e => e.dropPoke) = some true :=
  ⟨by decide,
   by
    have h := (channelFind_restarts_grace { self := 0, cache := cacheYfooIdle } "xfoo"
      { ChannelCacheEntry.fresh "yfoo" with
        channel := { state := ConnectionState.CONNECTED }, dropPoke := false }
      (by decide) (by decide)).1
    have hr : rewriteName "xfoo" = "yfoo" := by decide
    rw [hr] at h
    rw [h]
    rfl⟩

theorem get_names_of_none (c : ChannelCache) (name : String) (h : c.find name = none) :
    (c.get name).names = c.names ++ [name] := by
  simp [ChannelCache.get, h, ChannelCache.names]

theorem get_find_of_none (c : ChannelCache) (name : String) (h : c.find name = none) :
    (c.get name).find name = some (ChannelCacheEntry.fresh name) := by
  simp only [ChannelCache.get, h]
  exact assocFind_append_new name _ c.entries h

/-- Claim C12 as stated fails: `abc` is not a served name; `channelFind`
reports not found and the cache, empty before, holds no entry afterwards. -/
theorem channelFind_no_poke_unserved_counterexample :
    foundFlags (channelFind { self := 0, cache := { entries := [] } } "abc").trace = [false] ∧
    (channelFind { self := 0, cache := { entries := [] } } "abc").provider.cache.entries = [] ∧
    (channelFind { self := 0, cache := { entries := [] } } "abc").provider.cache.find "abc" =
      none := by
  decide

/-- Claim C12, amended: for every cache state and every name that is
non-empty and begins with `x`, whenever `channelFind` reports not found it has
poked the cache: after the call the cache holds an entry for the rewritten
name, either the one that already existed, now with `dropPoke = true`, or one
newly created by `cache.get`. -/
theorem channelFind_not_found_pokes (p : GWServerChannelProvider) (channelName : String)
    (hs : servedName channelName = true)
    (hnf : foundFlags (channelFind p channelName).trace = [false]) :
    (∃ e, p.cache.find (rewriteName channelName) = some e ∧
        e.channel.isConnected = false ∧
        (channelFind p channelName).provider.cache.find (rewriteName channelName) =
          some { e with dropPoke := true }) ∨
    (p.cache.find (rewriteName channelName) = none ∧
      (channelFind p channelName).provider.cache.find (rewriteName channelName) =
        some (ChannelCacheEntry.fresh (rewriteName channelName)) ∧
      (channelFind p channelName).provider.cache.names =
        p.cache.names ++ [rewriteName channelName]) := by
  rw [channelFind_foundFlags, hs] at hnf
  cases hf : p.cache.find (rewriteName channelName) with
  | none =>
      right
      rw [channelFind_provider_of_none p channelName hs hf]
      exact ⟨rfl, get_find_of_none _ _ hf, get_names_of_none _ _ hf⟩
  | some e =>
      left
      rw [hf] at hnf
      have hc : e.channel.isConnected = false := by simpa using hnf
      refine ⟨e, rfl, hc, ?_⟩
      rw [channelFind_provider_of_some p channelName e hs hf]
      show (p.cache.poke (rewriteName channelName)).find (rewriteName channelName) = _
      rw [poke_find, hf]
      rfl

/-- Witness for claim C12: the first request for `xfoo` in an empty cache
reports not found and leaves a fresh entry under `yfoo`. -/
theorem channelFind_not_found_pokes_witness :
    servedName "xfoo" = true ∧
    foundFlags (channelFind { self := 0, cache := { entries := [] } } "xfoo").trace = [false] ∧
    ((∃ e, ({ entries := [] } : ChannelCache).find (rewriteName "xfoo") = some e ∧
        e.channel.isConnected = false ∧
        (channelFind { self := 0, cache := { entries := [] } } "xfoo").provider.cache.find
          (rewriteName "xfoo") = some { e with dropPoke := true }) ∨
      (({ entries := [] } : ChannelCache).find (rewriteName "xfoo") = none ∧
        (channelFind { self := 0, cache := { entries := [] } } "xfoo").provider.cache.find
          (rewriteName "xfoo") = some (ChannelCacheEntry.fresh (rewriteName "xfoo")) ∧
        (channelFind { self := 0, cache := { entries := [] } } "xfoo").provider.cache.names =
          ({ entries := [] } : ChannelCache).names ++ [rewriteName "xfoo"])) :=
  ⟨by decide, by decide,
   channelFind_not_found_pokes { self := 0, cache := { entries := [] } } "xfoo"
     (by decide) (by decide)⟩

/-! ### createChannel and the cache -/

theorem createChannel_of_none (p : GWServerChannelProvider) (channelName : String)
    (channelRequester : ℕ)
    (h : (createChannelLookup p channelName channelRequester).1 = none) :
    createChannel p channelName channelRequester =
      { ret := none
        provider := p
        trace := (createChannelLookup p channelName channelRequester).2 ++
          [Event.print ("GWServer refusing channel " ++ channelName ++ "\n"),
           Event.channelCreated (Status.Error "Not found") none] } := by
  simp only [createChannel, h]

theorem createChannel_of_some (p : GWServerChannelProvider) (channelName : String)
    (channelRequester : ℕ) (ch : GWChannel)
    (h : (createChannelLookup p channelName channelRequester).1 = some ch) :
    createChannel p channelName channelRequester =
      { ret := some ch
        provider :=
          { p with cache := p.cache.hold (rewriteName channelName) channelRequester }
        trace := (createChannelLookup p channelName channelRequester).2 ++
          [Event.print ("GWServer connecting channel " ++ channelName ++ " as " ++
              rewriteName channelName ++ "\n"),
           Event.channelCreated Status.Ok (some ch)] } := by
  simp only [createChannel, h]

theorem createChannel_provider_of_none (p : GWServerChannelProvider) (channelName : String)
    (channelRequester : ℕ)
    (h : (createChannelLookup p channelName channelRequester).1 = none) :
    (createChannel p channelName channelRequester).provider = p := by
  rw [createChannel_of_none p channelName channelRequester h]

theorem createChannel_provider_of_some (p : GWServerChannelProvider) (channelName : String)
    (channelRequester : ℕ) (ch : GWChannel)
    (h : (createChannelLookup p channelName channelRequester).1 = some ch) :
    (createChannel p channelName channelRequester).provider =
      { p with cache := p.cache.hold (rewriteName channelName) channelRequester } := by
  rw [createChannel_of_some p channelName channelRequester ch h]

theorem hold_names (c : ChannelCache) (name : String) (channel : ℕ) :
    (c.hold name channel).names = c.names :=
  assocModify_keys name _ c.entries

theorem hold_find (c : ChannelCache) (name : String) (channel : ℕ) :
    (c.hold name channel).find name =
      (c.find name).map (fun e => { e with interested := e.interested ++ [channel] }) :=
  assocFind_modify name _ c.entries

theorem createChannel_names (p : GWServerChannelProvider) (channelName : String)
    (channelRequester : ℕ) :
    (createChannel p channelName channelRequester).provider.cache.names = p.cache.names := by
  cases h : (createChannelLookup p channelName channelRequester).1 with
  | none => rw [createChannel_provider_of_none p channelName channelRequester h]
  | some ch =>
      rw [createChannel_provider_of_some p channelName channelRequester ch h]
      exact hold_names _ _ _

theorem createChannel_ret (p : GWServerChannelProvider) (channelName : String)
    (channelRequester : ℕ) :
    (createChannel p channelName channelRequester).ret =
      (createChannelLookup p channelName channelRequester).1 := by
  cases h : (createChannelLookup p channelName channelRequester).1 with
  | none => rw [createChannel_of_none p channelName channelRequester h]
  | some ch => rw [createChannel_of_some p channelName channelRequester ch h]

theorem createChannel_ret_some (p : GWServerChannelProvider) (channelName : String)
    (channelRequester : ℕ) (ch : GWChannel)
    (h : (createChannel p channelName channelRequester).ret = some ch) :
    servedName channelName = true ∧
    p.cache.find (rewriteName channelName) = some ch.entry ∧
    ch.entry.channel.isConnected = true ∧ ch.requester = channelRequester := by
  rw [createChannel_ret, createChannelLookup_fst] at h
  cases hs : servedName channelName
  · simp [hs] at h
  · cases hf : p.cache.find (rewriteName channelName) with
    | none => simp [hs, hf] at h
    | some e =>
        cases hc : e.channel.isConnected
        · simp [hs, hf, hc] at h
        · simp only [hs, hf, hc, if_true, Option.some.injEq] at h
          subst h
          exact ⟨rfl, rfl, hc, rfl⟩

/-- After a successful `createChannel` the cache entry under the rewritten name
is the entry the channel wraps with the new channel among its interested
wrappers: its `dropPoke` is as before, and it has an external referrer. -/
theorem createChannel_entry_after (p : GWServerChannelProvider) (channelName : String)
    (channelRequester : ℕ) (ch : GWChannel)
    (h : (createChannel p channelName channelRequester).ret = some ch) :
    (createChannel p channelName channelRequester).provider.cache.find
        (rewriteName channelName) =
      some { ch.entry with interested := ch.entry.interested ++ [channelRequester] } := by
  have hl : (createChannelLookup p channelName channelRequester).1 = some ch := by
    rw [← createChannel_ret]; exact h
  rw [createChannel_provider_of_some p channelName channelRequester ch hl]
  show (p.cache.hold (rewriteName channelName) channelRequester).find
    (rewriteName channelName) = _
  rw [hold_find, (createChannel_ret_some p channelName channelRequester ch h).2.1]
  rfl

/-- A channel returned by `createChannel` keeps its entry from the sweeper,
whatever `dropPoke` is: the entry is still in the cache after a sweep. -/
theorem createChannel_entry_survives_sweep (p : GWServerChannelProvider)
    (channelName : String) (channelRequester : ℕ) (ch : GWChannel) (hwf : p.cache.WF)
    (h : (createChannel p channelName channelRequester).ret = some ch) :
    (createChannel p channelName channelRequester).provider.cache.sweep.find
      (rewriteName channelName) ≠ none := by
  have hwf2 : (createChannel p channelName channelRequester).provider.cache.WF := by
    show (createChannel p channelName channelRequester).provider.cache.names.Nodup
    rw [createChannel_names]; exact hwf
  rw [sweep_find _ hwf2, createChannel_entry_after p channelName channelRequester ch h]
  simp only [Option.some_bind, sweepEntry]
  have hr : ({ ch.entry with interested := ch.entry.interested ++ [channelRequester] } :
      ChannelCacheEntry).hasReferrers = true := by
    simp [ChannelCacheEntry.hasReferrers]
  split
  · simp
  · simp [hr]

/-- Claim C14: when `createChannel` fails with "Not found" the cache is left
alone: the set of names is the same after the call, and every entry is found
afterwards with the same upstream channel and the same interested set (the
code does not even touch `dropPoke`: the cache is the same value). -/
theorem createChannel_not_found_cache (p : GWServerChannelProvider) (channelName : String)
    (channelRequester : ℕ)
    (h : createdCalls (createChannel p channelName channelRequester).trace =
      [(Status.Error "Not found", none)]) :
    (createChannel p channelName channelRequester).ret = none ∧
    (createChannel p channelName channelRequester).provider.cache.names = p.cache.names ∧
    (∀ name e, p.cache.find name = some e →
      ∃ e', (createChannel p channelName channelRequester).provider.cache.find name = some e' ∧
        e'.channel = e.channel ∧ e'.interested = e.interested) ∧
    (createChannel p channelName channelRequester).provider.cache = p.cache := by
  have hnone : (createChannel p channelName channelRequester).ret = none := by
    cases hr : (createChannel p channelName channelRequester).ret with
    | none => rfl
    | some ch =>
        exfalso
        have h2 := createChannelLookup_snd p channelName channelRequester
        have hl : (createChannelLookup p channelName channelRequester).1 = some ch := by
          rw [← createChannel_ret]; exact hr
        rw [createChannel_of_some p channelName channelRequester ch hl] at h
        simp [createdCalls_skip_guard _ h2, createdCalls] at h
  have hp : (createChannel p channelName channelRequester).provider = p :=
    createChannel_provider_of_none p channelName channelRequester
      (by rw [← createChannel_ret]; exact hnone)
  exact ⟨hnone, by rw [hp], fun name e he => ⟨e, by rw [hp]; exact he, rfl, rfl⟩, by rw [hp]⟩

/-- Witness for claim C14: `xbar` is refused while `yfoo` is in the cache. -/
theorem createChannel_not_found_cache_witness :
    createdCalls (createChannel { self := 0, cache := cacheYfoo } "xbar" 3).trace =
      [(Status.Error "Not found", none)] ∧
    (createChannel { self := 0, cache := cacheYfoo } "xbar" 3).ret = none ∧
    (createChannel { self := 0, cache := cacheYfoo } "xbar" 3).provider.cache.names =
      cacheYfoo.names :=
  have h := createChannel_not_found_cache { self := 0, cache := cacheYfoo } "xbar" 3 (by decide)
  ⟨by decide, h.1, h.2.1⟩

/-! ### Channel deduplication -/

theorem channelFind_WF (p : GWServerChannelProvider) (channelName : String)
    (hwf : p.cache.WF) : (channelFind p channelName).provider.cache.WF := by
  cases hs : servedName channelName
  · rw [channelFind_provider_unserved p channelName hs]; exact hwf
  · cases hf : p.cache.find (rewriteName channelName) with
    | some e =>
        rw [channelFind_provider_of_some p channelName e hs hf]
        show (p.cache.poke (rewriteName channelName)).names.Nodup
        rw [poke_names]; exact hwf
    | none =>
        rw [channelFind_provider_of_none p channelName hs hf]
        show (p.cache.get (rewriteName channelName)).names.Nodup
        rw [get_names_of_none _ _ hf, List.nodup_append]
        refine ⟨hwf, List.nodup_singleton _, ?_⟩
        intro a ha hb
        simp only [List.mem_singleton] at hb
        subst hb
        exact (assocFind_eq_none_iff _ p.cache.entries).1 hf ha

theorem provider_run_WF (calls : List ProviderCall) (p : GWServerChannelProvider)
    (hwf : p.cache.WF) : (p.run calls).cache.WF := by
  induction calls generalizing p with
  | nil => exact hwf
  | cons call rest ih =>
      apply ih
      cases call with
      | channelFind channelName => exact channelFind_WF p channelName hwf
      | createChannel channelName channelRequester =>
          show (createChannel p channelName channelRequester).provider.cache.names.Nodup
          rw [createChannel_names]; exact hwf

theorem channelFind_names_same (p : GWServerChannelProvider) (channelName : String)
    (h : servedName channelName = false ∨ p.cache.find (rewriteName channelName) ≠ none) :
    (channelFind p channelName).provider.cache.names = p.cache.names := by
  cases hs : servedName channelName
  · rw [channelFind_provider_unserved p channelName hs]
  · cases hf : p.cache.find (rewriteName channelName) with
    | some e =>
        rw [channelFind_provider_of_some p channelName e hs hf]
        exact poke_names _ _
    | none =>
        rcases h with h | h
        · rw [hs] at h; cases h
        · exact absurd hf h

theorem channelFind_find_ne_none (p : GWServerChannelProvider) (channelName : String)
    (hs : servedName channelName = true) :
    (channelFind p channelName).provider.cache.find (rewriteName channelName) ≠ none := by
  cases hf : p.cache.find (rewriteName channelName) with
  | some e =>
      rw [channelFind_provider_of_some p channelName e hs hf]
      show (p.cache.poke (rewriteName channelName)).find (rewriteName channelName) ≠ none
      rw [poke_find, hf]
      simp
  | none =>
      rw [channelFind_provider_of_none p channelName hs hf]
      show (p.cache.get (rewriteName channelName)).find (rewriteName channelName) ≠ none
      rw [get_find_of_none _ _ hf]
      simp

/-- Claim C15: channel dedup (P1).  From a cache that binds no name twice,
every sequence of `channelFind` and `createChannel` calls leaves at most one
entry per name; `channelFind` changes the set of names only when the name is
served and the map has no entry under the rewritten name; two `channelFind`
calls for the same name leave the same set of names as one call. -/
theorem channel_dedup (p : GWServerChannelProvider) (calls : List ProviderCall)
    (channelName : String) (hwf : p.cache.WF) :
    (∀ name, (p.run calls).cache.names.count name ≤ 1) ∧
    ((servedName channelName = false ∨ p.cache.find (rewriteName channelName) ≠ none) →
      (channelFind p channelName).provider.cache.names = p.cache.names) ∧
    (channelFind (channelFind p channelName).provider channelName).provider.cache.names =
      (channelFind p channelName).provider.cache.names := by
  refine ⟨fun name => List.nodup_iff_count_le_one.1 (provider_run_WF calls p hwf) name,
    channelFind_names_same p channelName, ?_⟩
  apply channelFind_names_same
  cases hs : servedName channelName
  · exact Or.inl rfl
  · exact Or.inr (channelFind_find_ne_none p channelName hs)

/-- Witness for claim C15: two lookups of `xfoo` and a create, from the empty
cache, leave the single name `yfoo`. -/
theorem channel_dedup_witness :
    ({ entries := [] } : ChannelCache).WF ∧
    (({ self := 0, cache := { entries := [] } } : GWServerChannelProvider).run
      [ProviderCall.channelFind "xfoo", ProviderCall.channelFind "xfoo",
       ProviderCall.createChannel "xfoo" 3]).cache.names = ["yfoo"] ∧
    (({ self := 0, cache := { entries := [] } } : GWServerChannelProvider).run
      [ProviderCall.channelFind "xfoo", ProviderCall.channelFind "xfoo",
       ProviderCall.createChannel "xfoo" 3]).cache.names.count "yfoo" ≤ 1 :=
  ⟨by decide, by decide,
   (channel_dedup { self := 0, cache := { entries := [] } }
      [ProviderCall.channelFind "xfoo", ProviderCall.channelFind "xfoo",
       ProviderCall.createChannel "xfoo" 3] "xfoo" (by decide)).1 "yfoo"⟩

/-! ### Callbacks and the cache lock -/

theorem createChannelLookup_snd_eq (p : GWServerChannelProvider) (channelName : String)
    (channelRequester : ℕ) :
    (createChannelLookup p channelName channelRequester).2 =
      if servedName channelName then [Event.lock, Event.unlock] else [] := by
  unfold createChannelLookup
  split
  · split <;> [split; skip] <;> rfl
  · rfl

/-- Claim C17: on every path of `channelFind` and of `createChannel` the
requester callback (`channelFindResult`, `channelCreated`) is invoked with the
cache lock not held: the guard taken by the call has gone out of scope before
the callback (which each call makes exactly once), and the lock is not held
when the call returns. -/
theorem callbacks_outside_lock (p : GWServerChannelProvider) (channelName : String)
    (channelRequester : ℕ) :
    callbacksUnlocked false (channelFind p channelName).trace = true ∧
    lockHeldAfter false (channelFind p channelName).trace = false ∧
    (foundFlags (channelFind p channelName).trace).length = 1 ∧
    callbacksUnlocked false (createChannel p channelName channelRequester).trace = true ∧
    lockHeldAfter false (createChannel p channelName channelRequester).trace = false ∧
    (createdCalls (createChannel p channelName channelRequester).trace).length = 1 := by
  refine ⟨?_, ?_, ?_, ?_, ?_, ?_⟩
  · unfold channelFind
    cases hs : servedName channelName
    · simp [callbacksUnlocked]
    · cases hf : p.cache.find (rewriteName channelName) with
      | none => simp [callbacksUnlocked, hf]
      | some e => cases hc : e.channel.isConnected <;> simp [callbacksUnlocked, hf, hc]
  · unfold channelFind
    cases hs : servedName channelName
    · simp [lockHeldAfter]
    · cases hf : p.cache.find (rewriteName channelName) with
      | none => simp [lockHeldAfter, hf]
      | some e => cases hc : e.channel.isConnected <;> simp [lockHeldAfter, hf, hc]
  · rw [channelFind_foundFlags]; rfl
  · have h2 := createChannelLookup_snd_eq p channelName channelRequester
    cases h : (createChannelLookup p channelName channelRequester).1 with
    | none =>
        rw [createChannel_of_none p channelName channelRequester h, h2]
        cases servedName channelName <;> simp [callbacksUnlocked]
    | some ch =>
        rw [createChannel_of_some p channelName channelRequester ch h, h2]
        cases servedName channelName <;> simp [callbacksUnlocked]
  · have h2 := createChannelLookup_snd_eq p channelName channelRequester
    cases h : (createChannelLookup p channelName channelRequester).1 with
    | none =>
        rw [createChannel_of_none p channelName channelRequester h, h2]
        cases servedName channelName <;> simp [lockHeldAfter]
    | some ch =>
        rw [createChannel_of_some p channelName channelRequester ch h, h2]
        cases servedName channelName <;> simp [lockHeldAfter]
  · have h2 := createChannelLookup_snd_eq p channelName channelRequester
    cases h : (createChannelLookup p channelName channelRequester).1 with
    | none =>
        rw [createChannel_of_none p channelName channelRequester h, h2]
        cases servedName channelName <;> simp [createdCalls]
    | some ch =>
        rw [createChannel_of_some p channelName channelRequester ch h, h2]
        cases servedName channelName <;> simp [createdCalls]

/-! ### channelFind and createChannel agree -/

/-- Claim C20: `channelFind` reports found = true on a cache state exactly
when `createChannel` for the same name on that state returns a channel; both
amount to the same test on the same rewritten name: the name is served, and
an entry is present under the rewritten name and connected. -/
theorem find_create_agree (p : GWServerChannelProvider) (channelName : String)
    (channelRequester : ℕ) :
    (foundFlags (channelFind p channelName).trace = [true] ↔
      (createChannel p channelName channelRequester).ret ≠ none) ∧
    foundFlags (channelFind p channelName).trace = [resolvable p.cache channelName] ∧
    (createChannel p channelName channelRequester).ret.isSome =
      resolvable p.cache channelName := by
  rw [channelFind_foundFlags, createChannel_ret, createChannelLookup_fst]
  unfold resolvable
  cases hs : servedName channelName
  · simp
  · cases hf : p.cache.find (rewriteName channelName) with
    | none => simp
    | some e => cases hc : e.channel.isConnected <;> simp [hc]

/-! ## 7. The status command: theorems -/

/-- Claim C18: for a running server, `statusServer(level)` with level ≤ 0
writes, besides the line naming each provider, only counts (the number of
providers and, per gateway provider, the number of cache entries) and no
per-channel line; with level ≥ 1 it writes in addition exactly one line per
cache entry of each gateway provider, giving that entry's connection state,
channel name and number of interested clients. -/
theorem status_levels (stateNames : ConnectionState → String) (what : String)
    (prov : List ProviderSlot) (lvl : Int) (p : GWServerChannelProvider) :
    statusServer stateNames what (some prov) lvl =
      ("Server has " ++ toString prov.length ++ " providers\n") ::
        (prov.map (statusProvider stateNames lvl)).flatten ∧
    (lvl ≤ 0 →
      statusProvider stateNames lvl (ProviderSlot.gateway p) =
        ["Provider: GWServer\n",
         "Cache has " ++ toString p.cache.entries.length ++ " channels\n"]) ∧
    (1 ≤ lvl →
      statusProvider stateNames lvl (ProviderSlot.gateway p) =
        ["Provider: GWServer\n",
         "Cache has " ++ toString p.cache.entries.length ++ " channels\n"] ++
        p.cache.entries.map (fun ke =>
          stateNames ke.2.channel.state ++ " Channel '" ++ ke.2.channelName ++ "' with " ++
            toString ke.2.interested.length ++ " clients\n") ∧
      (statusProvider stateNames lvl (ProviderSlot.gateway p)).length =
        2 + p.cache.entries.length) := by
  refine ⟨rfl, ?_, ?_⟩
  · intro h
    simp [statusProvider, ProviderSlot.getProviderName, h]
  · intro h
    have h' : ¬ lvl ≤ 0 := by omega
    simp [statusProvider, ProviderSlot.getProviderName, h', channelLine]
    omega
/-- Witness for claim C18: a server with a null provider slot and a gateway
provider whose cache holds the connected entry `yfoo`, at levels 0 and 1. -/
theorem status_levels_witness :
    statusServer ConnectionStateNames "bad_weak_ptr"
        (some [ProviderSlot.null, ProviderSlot.gateway { self := 0, cache := cacheYfoo }]) 0 =
      ["Server has 2 providers\n", "Provider: NULL\n", "Provider: GWServer\n",
       "Cache has 1 channels\n"] ∧
    statusServer ConnectionStateNames "bad_weak_ptr"
        (some [ProviderSlot.null, ProviderSlot.gateway { self := 0, cache := cacheYfoo }]) 1 =
      ["Server has 2 providers\n", "Provider: NULL\n", "Provider: GWServer\n",
       "Cache has 1 channels\n", "CONNECTED Channel 'yfoo' with 0 clients\n"] ∧
    statusProvider ConnectionStateNames 0
        (ProviderSlot.gateway { self := 0, cache := cacheYfoo }) =
      ["Provider: GWServer\n", "Cache has 1 channels\n"] ∧
    (statusProvider ConnectionStateNames 1
        (ProviderSlot.gateway { self := 0, cache := cacheYfoo })).length = 2 + 1 :=
  have h := status_levels ConnectionStateNames "bad_weak_ptr"
    [ProviderSlot.null, ProviderSlot.gateway { self := 0, cache := cacheYfoo }]
  ⟨by decide, by decide,
   ((h 0 { self := 0, cache := cacheYfoo }).2.1 (by decide)).trans (by decide),
   ((h 1 { self := 0, cache := cacheYfoo }).2.2 (by decide)).2⟩

/-! ## 8. Re-push and pipeline credit: theorems -/

theorem findUser_ackRequest (m : MonitorCacheEntry) (uid n : ℕ) :
    (m.ackRequest uid n).findUser uid =
      (m.findUser uid).map (fun u => u.ackRequest m.snapshot n) :=
  find_modifyUser _ (fun u => ackRequest_uid m.snapshot u n) uid m.users

theorem rePush_pushes (s : Payload) (u : MonitorUser)
    (hov : u.inOverflow = true) (hfree : 0 < u.free)
    (hp : u.pipeline = false ∨ 0 < u.credit) :
    rePush s u =
      { u with
        queue := u.queue ++ [{ payload := s, changed := u.changed, overrun := u.overrun }]
        free := u.free - 1
        inOverflow := false
        changed := ∅
        overrun := ∅
        credit := if u.pipeline then u.credit - 1 else u.credit } := by
  have hm : ({ u with inOverflow := false } : MonitorUser).mayPush = true := by
    unfold MonitorUser.mayPush
    rcases hp with hp | hp <;> simp [hfree, hp]
  simp [rePush, hov, hfree, pushToUser, hm]

/-- Claim C19 as stated fails: the pipelined user of `overflowPipelined` is in
overflow and holds its initial element, but has no credit; releasing the
element puts nothing on its queue and leaves it in overflow. -/
theorem release_without_credit_counterexample :
    (overflowPipelined.findUser 1).map (fun u => (u.inOverflow, u.held, u.queue)) =
      some (true, 1, []) ∧
    ((overflowPipelined.release 1).findUser 1).map (fun u => (u.inOverflow, u.free, u.queue)) =
      some (true, 3, []) := by
  decide

/-- Claim C19, amended: for every user in overflow that is not pipelined or
has credit, releasing a held element enqueues exactly one element whose
payload is the snapshot current at release time and whose changed/overrun are
the user's accumulated bitsets; afterwards `inOverflow` is false and the
accumulated changed and overrun are empty.  Releasing when the user is not in
overflow enqueues nothing. -/
theorem release_repush (m : MonitorCacheEntry) (uid : ℕ) (u : MonitorUser)
    (h : m.findUser uid = some u) :
    (u.inOverflow = true → 1 ≤ u.held → (u.pipeline = false ∨ 0 < u.credit) →
      ∃ u', (m.release uid).findUser uid = some u' ∧
        u'.queue = u.queue ++
          [{ payload := m.snapshot, changed := u.changed, overrun := u.overrun }] ∧
        u'.inOverflow = false ∧ u'.changed = ∅ ∧ u'.overrun = ∅) ∧
    (u.inOverflow = false →
      ∃ u', (m.release uid).findUser uid = some u' ∧ u'.queue = u.queue ∧
        u'.inOverflow = false) := by
  have h1 := findUser_release m uid
  rw [h] at h1
  simp only [Option.map_some'] at h1
  constructor
  · intro hov hh hp
    have hne : ¬ u.held = 0 := by omega
    have hr : u.release m.snapshot =
        rePush m.snapshot { u with held := u.held - 1, free := u.free + 1 } := by
      simp [MonitorUser.release, hne]
    have h2 := rePush_pushes m.snapshot { u with held := u.held - 1, free := u.free + 1 }
      hov (by show 0 < u.free + 1; omega) hp
    rw [hr, h2] at h1
    exact ⟨_, h1, rfl, rfl, rfl, rfl⟩
  · intro hov
    refine ⟨_, h1, ?_, ?_⟩
    · unfold MonitorUser.release rePush
      split
      · rfl
      · simp [hov]
    · unfold MonitorUser.release rePush
      split
      · exact hov
      · simp [hov]

/-- Witness for claim C19, `test_overflow_downstream`: the user in overflow
gives its initial element back; the element enqueued carries `x = 53`, the
value current at release, with `x` changed and overrun. -/
theorem release_repush_witness :
    overflowHeld.findUser 1 = some overflowedUser ∧
    overflowedUser.inOverflow = true ∧
    ((overflowHeld.release 1).findUser 1).map (fun u => (u.queue, u.inOverflow)) =
      some ([{ payload := [50, 2], changed := {1}, overrun := ∅ },
             { payload := [51, 2], changed := {1}, overrun := ∅ },
             { payload := [53, 2], changed := {1}, overrun := {1} }], false) :=
  ⟨by decide, by decide,
   by
    obtain ⟨u', h1, h2, h3, _, _⟩ :=
      (release_repush overflowHeld 1 overflowedUser (by decide)).1 (by decide) (by decide)
        (Or.inl (by decide))
    rw [h1]
    simp only [Option.map_some', h2, h3]
    decide⟩

/-! ### Pipeline credit -/

theorem deliver_no_credit (s : Payload) (u : MonitorUser) (c o : BitSet)
    (hp : u.pipeline = true) (hc : u.credit = 0) :
    (deliver s u c o).queue = u.queue ∧ (deliver s u c o).pipeline = true ∧
    (deliver s u c o).credit = 0 ∧ (deliver s u c o).free = u.free ∧
    (deliver s u c o).held = u.held ∧ (deliver s u c o).inOverflow = true ∧
    (deliver s u c o).changed = u.changed ∪ c ∧
    u.overrun ⊆ (deliver s u c o).overrun := by
  unfold deliver
  split
  · rename_i hov
    exact ⟨rfl, hp, hc, rfl, rfl, hov, rfl, Finset.subset_union_left⟩
  · have hm : u.mayPush = false := by
      simp [MonitorUser.mayPush, hp, hc]
    simp only [pushToUser, hm]
    exact ⟨rfl, hp, hc, rfl, rfl, rfl, rfl, Finset.subset_union_left⟩

theorem run_events_no_credit (uid : ℕ) (evs : List (Payload × BitSet × BitSet)) :
    ∀ (m : MonitorCacheEntry) (u : MonitorUser), m.findUser uid = some u →
      u.pipeline = true → u.credit = 0 →
      ∃ u', (m.run (eventActions evs)).findUser uid = some u' ∧
        u'.queue = u.queue ∧ u'.pipeline = true ∧ u'.credit = 0 ∧
        u'.free = u.free ∧ u'.held = u.held ∧
        u.changed ⊆ u'.changed ∧ u.overrun ⊆ u'.overrun ∧
        (∀ ev ∈ evs, ev.2.1 ⊆ u'.changed) ∧
        (evs ≠ [] → u'.inOverflow = true) := by
  induction evs with
  | nil =>
      intro m u h hp hc
      exact ⟨u, h, rfl, hp, hc, rfl, rfl, subset_refl _, subset_refl _, by simp, by simp⟩
  | cons ev rest ih =>
      intro m u h hp hc
      have h1 := findUser_onEvent m uid ev.1 ev.2.1 ev.2.2
      rw [h] at h1
      simp only [Option.map_some'] at h1
      obtain ⟨d1, d2, d3, d4, d5, d6, d7, d8⟩ :=
        deliver_no_credit (mergeDelta m.snapshot ev.1 ev.2.1) u ev.2.1 ev.2.2 hp hc
      obtain ⟨u', g1, g2, g3, g4, g5, g6, g7, g8, g9, g10⟩ :=
        ih (m.onEvent ev.1 ev.2.1 ev.2.2) _ h1 d2 d3
      refine ⟨u', g1, by rw [g2, d1], g3, g4, by rw [g5, d4], by rw [g6, d5], ?_,
        d8.trans g8, ?_, ?_⟩
      · rw [d7] at g7
        exact Finset.union_subset_left g7
      · intro ev' hev'
        simp only [List.mem_cons] at hev'
        rcases hev' with rfl | hev'
        · rw [d7] at g7
          exact Finset.union_subset_right g7
        · exact g9 ev' hev'
      · intro _
        cases rest with
        | nil =>
            have : u' = deliver (mergeDelta m.snapshot ev.1 ev.2.1) u ev.2.1 ev.2.2 := by
              have hh : (m.onEvent ev.1 ev.2.1 ev.2.2).run (eventActions []) =
                  m.onEvent ev.1 ev.2.1 ev.2.2 := rfl
              rw [hh, h1] at g1
              exact (Option.some.inj g1).symm
            rw [this]; exact d6
        | cons ev₂ rest₂ => exact g10 (by simp)

/-- Claim C16 as stated fails: the pipelined user of `pipelinedAllHeld` has
credit 0 and an empty queue, but holds both of its slots; two events and an
`ackRequest(2)` later its queue is still empty and both credits are unspent. -/
theorem ack_without_slot_counterexample :
    (pipelinedAllHeld.findUser 7).map (fun u => (u.pipeline, u.credit, u.queue, u.free)) =
      some (true, 0, [], 0) ∧
    (((pipelinedAllHeld.run
        (eventActions [([6, 0], {1}, ∅), ([7, 0], {1}, ∅)])).ackRequest 7 2).findUser 7).map
      (fun u => (u.queue, u.credit)) = some ([], 2) := by
  decide

/-- Claim C16, amended: for every pipelined user with credit 0 and an empty
queue, each upstream event leaves the queue empty and the credit 0 and only
accumulates into the user's changed/overrun bitsets (the user enters
overflow); if the user has a free slot and at least one event arrived, a
following `ackRequest(n)` with n > 0 enqueues exactly one element that carries
the current snapshot and the accumulated changed/overrun bitsets, leaving the
queue with length 1 and, of the n credits granted, n - 1. -/
theorem pipeline_credit (m : MonitorCacheEntry) (uid n : ℕ) (u : MonitorUser)
    (evs : List (Payload × BitSet × BitSet))
    (h : m.findUser uid = some u) (hp : u.pipeline = true) (hc : u.credit = 0)
    (hq : u.queue = []) :
    ∃ u', (m.run (eventActions evs)).findUser uid = some u' ∧
      u'.queue = [] ∧ u'.credit = 0 ∧
      u.changed ⊆ u'.changed ∧ u.overrun ⊆ u'.overrun ∧
      (∀ ev ∈ evs, ev.2.1 ⊆ u'.changed) ∧
      (evs ≠ [] → 0 < u.free → 0 < n →
        ∃ u'', ((m.run (eventActions evs)).ackRequest uid n).findUser uid = some u'' ∧
          u''.queue = [{ payload := (m.run (eventActions evs)).snapshot
                         changed := u'.changed, overrun := u'.overrun }] ∧
          u''.queue.length = 1 ∧ u''.credit = n - 1 ∧
          u''.inOverflow = false ∧ u''.changed = ∅ ∧ u''.overrun = ∅) := by
  obtain ⟨u', g1, g2, g3, g4, g5, g6, g7, g8, g9, g10⟩ := run_events_no_credit uid evs m u h hp hc
  refine ⟨u', g1, by rw [g2, hq], g4, g7, g8, g9, ?_⟩
  intro hne hfree hn
  have hov := g10 hne
  have h1 := findUser_ackRequest (m.run (eventActions evs)) uid n
  rw [g1] at h1
  simp only [Option.map_some'] at h1
  have hr : u'.ackRequest (m.run (eventActions evs)).snapshot n =
      rePush (m.run (eventActions evs)).snapshot { u' with credit := u'.credit + n } := by
    simp [MonitorUser.ackRequest, g3]
  have h2 := rePush_pushes (m.run (eventActions evs)).snapshot
    { u' with credit := u'.credit + n } hov (by show 0 < u'.free; omega)
    (Or.inr (by show 0 < u'.credit + n; omega))
  rw [hr, h2] at h1
  refine ⟨_, h1, ?_, ?_, ?_, rfl, rfl, rfl⟩
  · show u'.queue ++ _ = _
    rw [g2, hq]; rfl
  · show (u'.queue ++ _).length = 1
    rw [g2, hq]; rfl
  · show (if u'.pipeline = true then u'.credit + n - 1 else u'.credit + n) = n - 1
    rw [g3, g4]; simp

/-- Witness for claim C16, the scenario "Pipeline credit": queueSize 4,
pipelined, no credit; two posts of `x` leave the queue empty, `ackRequest(2)`
enqueues one element with `x = 43`, `x` changed and overrun, and leaves one
credit. -/
theorem pipeline_credit_witness :
    (pipelinedIdle.findUser 7).map (fun u => (u.pipeline, u.credit, u.queue, u.free)) =
      some (true, 0, [], 4) ∧
    ((pipelinedIdle.run (eventActions [([42, 0], {1}, ∅), ([43, 0], {1}, ∅)])).findUser 7).map
      (fun u => (u.queue, u.changed, u.overrun)) = some ([], {1}, {1}) ∧
    (((pipelinedIdle.run
        (eventActions [([42, 0], {1}, ∅), ([43, 0], {1}, ∅)])).ackRequest 7 2).findUser 7).map
      (fun u => (u.queue, u.credit)) =
      some ([{ payload := [43, 2], changed := {1}, overrun := {1} }], 1) ∧
    ∃ u', (pipelinedIdle.run
        (eventActions [([42, 0], {1}, ∅), ([43, 0], {1}, ∅)])).findUser 7 = some u' ∧
      u'.queue = [] ∧ u'.credit = 0 :=
  ⟨by decide, by decide, by decide,
   by
    obtain ⟨u', h1, h2, h3, _⟩ := pipeline_credit pipelinedIdle 7 2
      { MonitorUser.create 7 (makeRequest 4 true) with initialSent := true }
      [([42, 0], {1}, ∅), ([43, 0], {1}, ∅)] (by decide) (by decide) (by decide) (by decide)
    exact ⟨u', h1, h2, h3⟩⟩

/-! ## 9. The tag device support: theorems -/

/-- Claim C21, the code at a negative VAL: for `VAL = -2` (32-bit pattern
`0xFFFFFFFE`) `write_tag` succeeds and stores the tag `0xFFFFFFFFFFFFFFFE`:
the lower 32 bits are VAL's pattern, the upper 32 bits are all ones and differ
from it. -/
theorem write_tag_negative_val :
    (write_tag { val := -2, dpvt := some { tag := 0 }, out := none, alarm := none }).1 = 0 ∧
    (write_tag { val := -2, dpvt := some { tag := 0 }, out := none, alarm := none }).2.dpvt =
      some { tag := 0xFFFFFFFFFFFFFFFE } ∧
    pattern32 (-2) = 0xFFFFFFFE ∧
    lower32 (makeTag (-2)) = pattern32 (-2) ∧
    upper32 (makeTag (-2)) = 0xFFFFFFFF ∧
    upper32 (makeTag (-2)) ≠ pattern32 (-2) := by
  decide

/-- For a VAL that is not negative the tag does repeat VAL: both halves equal
VAL's 32-bit pattern. -/
theorem makeTag_nonneg (val : Int) (h0 : 0 ≤ val) (h1 : val < 2 ^ 31) :
    upper32 (makeTag val) = pattern32 val ∧ lower32 (makeTag val) = pattern32 val := by
  obtain ⟨n, rfl⟩ := Int.eq_ofNat_of_zero_le h0
  have hn : n < 2 ^ 31 := by exact_mod_cast h1
  have h64 : toUInt64 (n : Int) = n := by
    unfold toUInt64
    have : ((n : Int) % (2 ^ 64 : Int)) = (n : Int) :=
      Int.emod_eq_of_lt (by omega) (by omega)
    rw [this]; rfl
  have h32 : pattern32 (n : Int) = n := by
    unfold pattern32
    have : ((n : Int) % (2 ^ 32 : Int)) = (n : Int) :=
      Int.emod_eq_of_lt (by omega) (by omega)
    rw [this]; rfl
  have hshift : n * 2 ^ 32 % 2 ^ 64 = n * 2 ^ 32 := Nat.mod_eq_of_lt (by omega)
  have hor : n * 2 ^ 32 ||| n = 2 ^ 32 * n + n := by
    have := Nat.mul_add_lt_is_or (show n < 2 ^ 32 by omega) n
    rw [Nat.mul_comm n (2 ^ 32)]
    exact this.symm
  have hup : (2 ^ 32 * n + n) / 2 ^ 32 % 2 ^ 32 = n := by
    rw [Nat.mul_add_div (by norm_num), Nat.div_eq_of_lt (by omega), Nat.add_zero]
    exact Nat.mod_eq_of_lt (by omega)
  have hlow : (2 ^ 32 * n + n) % 2 ^ 32 = n := by
    rw [Nat.mul_add_mod]
    exact Nat.mod_eq_of_lt (by omega)
  unfold makeTag upper32 lower32
  rw [h64, h32, hshift, hor]
  exact ⟨hup, hlow⟩

/-! ## 10. The find callback and the name rewrite: theorems -/

/-- Claim C22: every call to `channelFind` invokes `channelFindResult` exactly
once, with status Ok; the handle it passes is the value `channelFind` returns,
found = true is passed exactly when that handle is non-null, and a non-null
handle is the provider itself. -/
theorem channelFind_callback (p : GWServerChannelProvider) (channelName : String) :
    findResults (channelFind p channelName).trace =
      [(Status.Ok, (channelFind p channelName).ret, (channelFind p channelName).ret.isSome)] ∧
    ((channelFind p channelName).ret = none ∨
      (channelFind p channelName).ret = some p.getChannelProvider) ∧
    (foundFlags (channelFind p channelName).trace = [true] ↔
      (channelFind p channelName).ret ≠ none) := by
  unfold channelFind
  cases hs : servedName channelName
  · simp [findResults, foundFlags]
  · cases hf : p.cache.find (rewriteName channelName) with
    | none => simp [findResults, foundFlags, hf]
    | some e =>
        cases hc : e.channel.isConnected <;>
          simp [findResults, foundFlags, hf, hc, GWServerChannelProvider.getChannelProvider]

theorem servedName_data (channelName : String) (h : servedName channelName = true) :
    channelName.data = 'x' :: channelName.data.drop 1 := by
  unfold servedName at h
  cases hd : channelName.data with
  | nil => simp [hd] at h
  | cons c cs =>
      simp only [hd, decide_eq_true_eq] at h
      simp [h]

theorem rewriteName_injective (a b : String) (ha : servedName a = true)
    (hb : servedName b = true) (h : rewriteName a = rewriteName b) : a = b := by
  have h1 : (rewriteName a).data = (rewriteName b).data := by rw [h]
  rw [rewriteName_data, rewriteName_data] at h1
  have h2 : a.data.drop 1 = b.data.drop 1 := (List.cons.inj h1).2
  have h3 : a.data = b.data := by
    rw [servedName_data a ha, servedName_data b hb, h2]
  exact String.ext h3

/-- Claim C23: the name rewrite is injective on served names and keeps cache
keys apart from served names: two distinct names beginning with `x` are
rewritten to two distinct cache keys; the only key `channelFind` hands to the
cache (to look up, poke or create) and the only key `createChannel` looks up
is the rewritten name, which begins with `y` and is not itself served. -/
theorem rewrite_injective_disjoint (p : GWServerChannelProvider) (a b : String)
    (channelRequester : ℕ) :
    (servedName a = true → servedName b = true → a ≠ b → rewriteName a ≠ rewriteName b) ∧
    (rewriteName a).data.head? = some 'y' ∧
    servedName (rewriteName a) = false ∧
    ((channelFind p a).provider.cache = p.cache ∨
      (channelFind p a).provider.cache = p.cache.poke (rewriteName a) ∨
      (channelFind p a).provider.cache = p.cache.get (rewriteName a)) ∧
    (foundFlags (channelFind p a).trace = [true] →
      ∃ e, p.cache.find (rewriteName a) = some e) ∧
    (∀ ch, (createChannel p a channelRequester).ret = some ch →
      p.cache.find (rewriteName a) = some ch.entry) ∧
    (∀ cha chb, servedName a = true → servedName b = true → a ≠ b →
      (createChannel p a channelRequester).ret = some cha →
      (createChannel p b channelRequester).ret = some chb →
      ∃ ka kb, ka ≠ kb ∧ p.cache.find ka = some cha.entry ∧
        p.cache.find kb = some chb.entry) := by
  have hinj : servedName a = true → servedName b = true → a ≠ b →
      rewriteName a ≠ rewriteName b :=
    fun ha hb hab h => hab (rewriteName_injective a b ha hb h)
  refine ⟨hinj, by simp [rewriteName_data], servedName_rewriteName a, ?_, ?_, ?_, ?_⟩
  · cases hs : servedName a
    · exact Or.inl (by rw [channelFind_provider_unserved p a hs])
    · cases hf : p.cache.find (rewriteName a) with
      | some e => exact Or.inr (Or.inl (by rw [channelFind_provider_of_some p a e hs hf]))
      | none => exact Or.inr (Or.inr (by rw [channelFind_provider_of_none p a hs hf]))
  · intro hfound
    rw [channelFind_foundFlags] at hfound
    cases hf : p.cache.find (rewriteName a) with
    | some e => exact ⟨e, rfl⟩
    | none => simp [hf] at hfound
  · intro ch h
    exact (createChannel_ret_some p a channelRequester ch h).2.1
  · intro cha chb ha hb hab hca hcb
    exact ⟨rewriteName a, rewriteName b, hinj ha hb hab,
      (createChannel_ret_some p a channelRequester cha hca).2.1,
      (createChannel_ret_some p b channelRequester chb hcb).2.1⟩
/-- Witness for claim C23: `xfoo` and `xbar` are served from the distinct
cache keys `yfoo` and `ybar`, and the channels created for them wrap the
entries under those keys. -/
theorem rewrite_injective_disjoint_witness :
    rewriteName "xfoo" ≠ rewriteName "xbar" ∧
    ((createChannel { self := 0, cache := cacheTwo } "xfoo" 1).ret).map
      (fun ch => ch.entry.channelName) = some "yfoo" ∧
    ((createChannel { self := 0, cache := cacheTwo } "xbar" 1).ret).map
      (fun ch => ch.entry.channelName) = some "ybar" :=
  ⟨(rewrite_injective_disjoint { self := 0, cache := cacheTwo } "xfoo" "xbar" 1).1
      (by decide) (by decide) (by decide),
   by decide, by decide⟩

end GW
